import Mathlib

/-!
Verification development for the CodingBaby-Browser-MCP coordination layer.

Shallow embedding of:
- the correlated request/response channel of src/Browser-MCP/chrome-client.js
  (sendMessageToClient / waitForResponse / handleMessageFromClient);
- the per-tab lifecycle coordinator of the extension background tab service
  (waitForTabProcessingComplete, waitForTabOperationComplete and its race);
- the stability detector waitTillHTMLStable;
- the debugger session manager attachDebugger;
- click parameter parsing (performClick) and the batch executor
  (handleBatchCommand / executeOperation).

JavaScript Maps are embedded as insertion-ordered association lists, promises as
explicit settlement effects, the single-threaded event loop as an explicit list
of atomic events folded over a state, and wall-clock time as idealized elapsed
counters advanced by the explicit sleep durations of the source.
-/

namespace BrowserMCP

/-! ## Correlated channel: src/Browser-MCP/chrome-client.js -/

/-- Viewport configuration {width, height}. -/
structure Viewport where
  width : Nat
  height : Nat
  deriving DecidableEq, Repr

/-- One entry of the pendingRequests Map of ChromeExtensionClient: key and the
stored command name.  The resolve/reject continuations are modelled as
settlement effects, the timeoutHandle as a timeoutFire event.  Request ids
req-N are modelled by their counter value N. -/
structure PendingEntry where
  requestId : Nat
  command : String
  deriving DecidableEq, Repr

/-- The orchestrator-side client state: the pendingRequests Map (insertion
ordered, as a JS Map iterates), the viewport, the last known URL, and the
monotonic requestIdCounter of sendMessageToClient. -/
structure ClientState where
  pendingRequests : List PendingEntry
  viewport : Viewport
  currentUrl : Option String
  requestIdCounter : Nat
  deriving DecidableEq, Repr

/-- An inbound message from the extension, with the fields
handleMessageFromClient destructures.  Absent (undefined / falsy) fields are
none. -/
structure ClientMessage where
  requestId : Option Nat
  command : Option String
  status : Option String
  viewport : Option Viewport
  currentUrl : Option String
  url : Option String
  deriving DecidableEq, Repr

/-- A settlement of the promise created by waitForResponse for a request id:
resolve or reject. -/
inductive Settlement where
  | resolved (requestId : Nat)
  | rejected (requestId : Nat)
  deriving DecidableEq, Repr

/-- The request id a settlement belongs to. -/
def settlementId : Settlement → Nat
  | .resolved r => r
  | .rejected r => r

/-- Map.delete on the pendingRequests map (chrome-client.js lines 301, 327,
403). -/
def removePending (l : List PendingEntry) (rid : Nat) : List PendingEntry :=
  l.filter (fun p => p.requestId ≠ rid)

/-- ChromeExtensionClient.handleMessageFromClient (chrome-client.js lines
279-364): viewportSync branch, the no-requestId setViewportConfig ack fallback
that scans pendingRequests in insertion order, and the regular correlated
path.  Returns the new client state and the list of promise settlements the
call performs. -/
def handleMessageFromClient (s : ClientState) (m : ClientMessage) :
    ClientState × List Settlement :=
  if m.command = some "viewportSync" ∧ m.viewport.isSome then
    ({ s with viewport := m.viewport.getD s.viewport }, [])
  else if m.requestId = none ∧ m.command = some "setViewportConfig" ∧
      m.status = some "ack" then
    match s.pendingRequests.find? (fun p => p.command = "setViewportConfig") with
    | some p =>
        ({ s with pendingRequests := removePending s.pendingRequests p.requestId },
         [Settlement.resolved p.requestId])
    | none => (s, [])
  else
    match m.requestId with
    | none => (s, [])
    | some rid =>
      match s.pendingRequests.find? (fun p => p.requestId = rid) with
      | none => (s, [])
      | some _ =>
        if m.status = some "error" then
          ({ s with pendingRequests := removePending s.pendingRequests rid },
           [Settlement.rejected rid])
        else if m.status = some "ack" ∨ m.status = some "success" then
          ({ s with
              pendingRequests := removePending s.pendingRequests rid,
              currentUrl :=
                match m.currentUrl with
                | some u => some u
                | none =>
                  match m.url with
                  | some u => some u
                  | none => s.currentUrl },
           [Settlement.resolved rid])
        else
          ({ s with pendingRequests := removePending s.pendingRequests rid },
           [Settlement.rejected rid])

/-- Atomic events of the single-threaded client event loop: delivery of an
inbound message, firing of a waitForResponse timeout, and
sendMessageToClient followed by waitForResponse registering the pending
entry. -/
inductive ClientEvent where
  | deliver (m : ClientMessage)
  | timeoutFire (requestId : Nat)
  | send (command : String)
  deriving DecidableEq, Repr

/-- One atomic callback execution of the client.  The timeout callback
(chrome-client.js lines 395-405) rejects and deletes the entry if still
pending; send issues requestId req-counter and waitForResponse (line 407)
stores the entry. -/
def clientStep (s : ClientState) (e : ClientEvent) : ClientState × List Settlement :=
  match e with
  | .deliver m => handleMessageFromClient s m
  | .timeoutFire rid =>
    if (s.pendingRequests.find? (fun p => p.requestId = rid)).isSome then
      ({ s with pendingRequests := removePending s.pendingRequests rid },
       [Settlement.rejected rid])
    else (s, [])
  | .send cmd =>
    ({ s with
        pendingRequests := s.pendingRequests ++ [⟨s.requestIdCounter, cmd⟩],
        requestIdCounter := s.requestIdCounter + 1 }, [])

/-- Run a sequence of client events, accumulating all settlements. -/
def runClient (s : ClientState) : List ClientEvent → ClientState × List Settlement
  | [] => (s, [])
  | e :: es =>
    let r1 := clientStep s e
    let r2 := runClient r1.1 es
    (r2.1, r1.2 ++ r2.2)

/-- The keys of the pendingRequests map. -/
def pendingIds (s : ClientState) : List Nat :=
  s.pendingRequests.map PendingEntry.requestId

/-- Well-formedness of the client state: map keys are distinct, and every
pending id was issued by the counter (is below it). -/
abbrev ClientWF (s : ClientState) : Prop :=
  (pendingIds s).Nodup ∧ ∀ r ∈ pendingIds s, r < s.requestIdCounter

/-- Number of settlements of request id r in an effect list. -/
def settleCount (effs : List Settlement) (r : Nat) : Nat :=
  (effs.filter (fun e => settlementId e = r)).length

/-- Settlement potential of request id r: it can settle once if pending, once
more if not yet issued. -/
def phi (s : ClientState) (r : Nat) : Nat :=
  (if r ∈ pendingIds s then 1 else 0) +
    (if s.requestIdCounter ≤ r then 1 else 0)

/-! ## Tab processing states and the busy-wait guard
(tab service, src/unnamed/part_001 lines 356-363 and 572-622) -/

/-- TabProcessingState constants (part_001 lines 356-363) plus the string state
batch_processing that handleBatchCommand stores in the same map
(batchCommandHandler.js line 57). -/
inductive TabProcessingState where
  | idle
  | navPending
  | stabilizing
  | attaching
  | capturing
  | completed
  | batchProcessing
  deriving DecidableEq, Repr

/-- Poll interval of the busy-wait: setTimeout(checkState, 500) at part_001
line 617. -/
def busyPollMs : Nat := 500

/-- Wait bound the coordinator passes when a target is busy, at part_001 lines
737 and 998 (the signature default 30000 of waitForTabProcessingComplete is
never used on these paths). -/
def coordinatorBusyWaitMs : Nat := 10000

/-- How a busy-wait call resolved.  Every constructor is a resolve: the
function captures reject but never calls it (part_001 lines 585-622). -/
inductive BusyWaitOutcome where
  | immediate
  | resolvedAt (poll : Nat)
  | forceResetAt (poll : Nat)
  deriving DecidableEq, Repr

/-- The checkState polling loop of waitForTabProcessingComplete (part_001
lines 588-618), over the stream obs of map entries observed at each poll
(none = the entry was deleted, e.g. by handleTabRemoved).  Poll i happens at
idealized elapsed time busyPollMs * i; elapsedTime > timeout forces a reset.
The asynchronous chrome.tabs.get(...).catch(resolve) probe (lines 590-594)
settles the same promise and cannot add a rejection, so it is not modelled. -/
def checkState (obs : Nat → Option TabProcessingState) (timeout : Nat) (i : Nat) :
    BusyWaitOutcome :=
  if obs i = none ∨ obs i = some .completed ∨ obs i = some .idle then
    .resolvedAt i
  else if busyPollMs * i > timeout then
    .forceResetAt i
  else
    checkState obs timeout (i + 1)
termination_by timeout + 1 - busyPollMs * i
decreasing_by simp only [busyPollMs] at *; omega

/-- waitForTabProcessingComplete (part_001 lines 572-622): the
batch_processing fast path and the immediate has/COMPLETED check, then the
polling promise. -/
def waitForTabProcessingComplete (obs : Nat → Option TabProcessingState)
    (timeout : Nat) : BusyWaitOutcome :=
  if obs 0 = some .batchProcessing then .immediate
  else if obs 0 = none ∨ obs 0 = some .completed then .immediate
  else checkState obs timeout 0

/-- Poll index at which the wait resolved. -/
def busyWaitPoll : BusyWaitOutcome → Nat
  | .immediate => 0
  | .resolvedAt i => i
  | .forceResetAt i => i

/-- The map entry for the tab at the moment the wait resolves: on force reset
the state was overwritten with IDLE (part_001 line 611), otherwise it is the
last observed entry. -/
def busyWaitFinalEntry (obs : Nat → Option TabProcessingState) (timeout : Nat) :
    Option TabProcessingState :=
  match waitForTabProcessingComplete obs timeout with
  | .immediate => obs 0
  | .resolvedAt i => obs i
  | .forceResetAt _ => some .idle

/-- The entry obs j keeps the wait blocked: present and neither COMPLETED nor
IDLE. -/
abbrev busyObs (obs : Nat → Option TabProcessingState) (j : Nat) : Prop :=
  ¬ (obs j = none ∨ obs j = some .completed ∨ obs j = some .idle)

/-! ## Stability detector: waitTillHTMLStable (src/unnamed/part_005 lines 9-107) -/

/-- Maximum allowed consecutive sampling errors (part_005 line 15). -/
def maxErrors : Nat := 3

/-- The raw outcome of one sampling attempt inside getHtmlSize, before its own
error handling: the tab lookup fails (tab gone), the tab reports status
loading, the content script returns a size, the script returns no result, or
executeScript throws one of the three recognized error classes. -/
inductive RawSample where
  | tabMissing
  | tabLoading
  | size (n : Nat)
  | scriptNoResult
  | errTabClosed
  | errNotReady
  | errOther
  deriving DecidableEq, Repr

/-- Result of getHtmlSize: a sampled value (-1 means the tab is gone) or a
propagated throw. -/
inductive SizeResult where
  | val (v : Int)
  | thrown
  deriving DecidableEq, Repr

/-- getHtmlSize (part_005 lines 18-71): threads the consecutive-error counter
errorCount, which only a successful script execution resets; the tab-closed
and other error classes escalate (to -1 respectively a throw) only once
maxErrors consecutive errors accumulated. -/
def getHtmlSize (errorCount : Nat) : RawSample → SizeResult × Nat
  | .tabMissing => (.val (-1), errorCount)
  | .tabLoading => (.val 0, errorCount)
  | .size n => (.val n, 0)
  | .scriptNoResult => (.val 0, errorCount)
  | .errTabClosed =>
      if maxErrors ≤ errorCount + 1 then (.val (-1), errorCount + 1)
      else (.val 0, errorCount + 1)
  | .errNotReady => (.val 0, errorCount + 1)
  | .errOther =>
      if maxErrors ≤ errorCount + 1 then (.thrown, errorCount + 1)
      else (.val 0, errorCount + 1)

/-- Milliseconds getHtmlSize spends before returning: the 50 ms settle sleep
(line 34) precedes script execution; the tab-existence and loading checks
return before it. -/
def sampleDuration : RawSample → Nat
  | .tabMissing => 0
  | .tabLoading => 0
  | _ => 50

/-- How a waitTillHTMLStable call ended, with the idealized elapsed time at
return.  fuelOut is an artifact of the fuel parameter and is proved
unreachable. -/
inductive StableOutcome where
  | stable (elapsed : Nat)
  | tabGone (elapsed : Nat)
  | timedOut (elapsed : Nat)
  | fuelOut
  deriving DecidableEq, Repr

/-- Elapsed time at return. -/
def stableElapsed : StableOutcome → Nat
  | .stable e => e
  | .tabGone e => e
  | .timedOut e => e
  | .fuelOut => 0

/-- True exactly on the early stable return. -/
def isStableOutcome : StableOutcome → Bool
  | .stable _ => true
  | _ => false

/-- The while loop of waitTillHTMLStable (part_005 lines 73-104) over the
stream of raw samples, with loop state (sample index k, lastHTMLSize,
stableCount, errorCount, elapsed ms).  Loop condition: elapsed < timeout.  A
sampled -1 returns (tab gone); equality with a nonzero lastHTMLSize increments
stableCount, anything else resets it to 0; reaching stableIterations returns
stable; otherwise lastHTMLSize is updated and the loop sleeps checkInterval.
A throw is caught: the catch sleeps checkInterval and breaks if within
checkInterval of the timeout (line 100).  The structural fuel only bounds the
iteration count; waitTillHTMLStable passes enough fuel that it never runs
out. -/
def stableLoop (samples : Nat → RawSample) (timeout checkInterval stableIterations : Nat) :
    Nat → Nat → Int → Nat → Nat → Nat → StableOutcome
  | 0, _, _, _, _, _ => .fuelOut
  | fuel + 1, k, last, count, errorCount, elapsed =>
    if elapsed < timeout then
      match getHtmlSize errorCount (samples k) with
      | (.thrown, ec) =>
        if timeout < elapsed + 50 + checkInterval + checkInterval then
          .timedOut (elapsed + 50 + checkInterval)
        else
          stableLoop samples timeout checkInterval stableIterations fuel (k + 1)
            last count ec (elapsed + 50 + checkInterval)
      | (.val v, ec) =>
        if v = -1 then .tabGone (elapsed + sampleDuration (samples k))
        else
          if stableIterations ≤ (if last ≠ 0 ∧ v = last then count + 1 else 0) then
            .stable (elapsed + sampleDuration (samples k))
          else
            stableLoop samples timeout checkInterval stableIterations fuel (k + 1)
              v (if last ≠ 0 ∧ v = last then count + 1 else 0) ec
              (elapsed + sampleDuration (samples k) + checkInterval)
    else .timedOut elapsed

/-- waitTillHTMLStable (part_005 line 9): initial state lastHTMLSize = 0,
stableCount = 0, errorCount = 0, elapsed 0, with fuel timeout + 2 (since
every iteration advances elapsed by at least checkInterval ≥ 1, this fuel is
never exhausted). -/
def waitTillHTMLStable (samples : Nat → RawSample)
    (timeout checkInterval stableIterations : Nat) : StableOutcome :=
  stableLoop samples timeout checkInterval stableIterations (timeout + 2) 0 0 0 0 0

/-- An error-free run sampling the sizes v. -/
def pureSamples (v : Nat → Nat) : Nat → RawSample := fun k => RawSample.size (v k)

/-- Idealized elapsed time at the start of iteration k on an error-free run:
each iteration costs the 50 ms settle sleep plus the checkInterval sleep. -/
def pureElapsed (checkInterval k : Nat) : Nat := k * (50 + checkInterval)

/-- lastHTMLSize at the start of the iteration that processes sample k on an
error-free run of sizes v. -/
def lastSize (v : Nat → Nat) : Nat → Int
  | 0 => 0
  | k + 1 => (v k : Int)

/-- stableCount at the start of the iteration that processes sample k on an
error-free run of sizes v (so stableCountAt v (k + 1) is the count checked
against stableIterations right after sample k is processed). -/
def stableCountAt (v : Nat → Nat) : Nat → Nat
  | 0 => 0
  | k + 1 =>
    if lastSize v k ≠ 0 ∧ (v k : Int) = lastSize v k then stableCountAt v k + 1 else 0

/-! ## New-tab race: waitForTabOperationComplete (part_001 lines 725-886),
together with the global active-tab writers it races against: the module
onActivated listener (part_001 lines 376-402), setActiveTabId (lines
300-306) and the synchronous part of handleTabRemoved (lines 495-520). -/

/-- Fast new-tab detection delay in ms (part_001 line 842). -/
def fastDetectionMs : Nat := 500

/-- Long-wait fallback delay in ms (part_001 line 865). -/
def longWaitMs : Nat := 5000

/-- Which of the competing paths performed a commit: the tab-activation
continuation (processNewTab, line 795), the fast timer (processActiveTab on
the original tab, line 840), or the 5 s long-wait fallback (processActiveTab
on getActiveTabId() or the original, line 864). -/
inductive CommitSource where
  | newTabPath
  | fastTimerPath
  | longWaitPath
  deriving DecidableEq, Repr

/-- One call to processNewTab / processActiveTab: the tab id passed to the
shared completion stages (none when getActiveTabId() was null), which path
committed, and the value of newTabDetected at that moment.  Each such call
settles the returned promise exactly once from that tab's processTabCore
result. -/
structure RaceCommit where
  target : Option Nat
  source : CommitSource
  newTabDetected : Bool
  deriving DecidableEq, Repr

/-- State of one waitForTabOperationComplete invocation after the input
operation was dispatched successfully and both timers were armed (lines
804-865), together with the module globals openedTabIds and activeTabId that
the long-wait fallback reads. -/
structure RaceState where
  openedTabIds : List Nat
  activeTabId : Option Nat
  newTabDetected : Bool
  navigationHandled : Bool
  fastTimerArmed : Bool
  longTimerArmed : Bool
  listenerActive : Bool
  commits : List RaceCommit
  deriving DecidableEq, Repr

/-- Initial race state: tabsBeforeOperation is the snapshot of openedTabIds
taken at line 742, the original tab is active, the listener is registered and
both timers armed. -/
def initRaceState (initialActiveTabId : Nat) (tabsBeforeOperation : List Nat) : RaceState :=
  ⟨tabsBeforeOperation, some initialActiveTabId, false, false, true, true, true, []⟩

/-- setActiveTabId (part_001 lines 300-306): the active-tab pointer only ever
moves to a truthy, currently-tracked tab id. -/
def setActiveTabId (openedTabIds : List Nat) (activeTabId : Option Nat) (t : Nat) :
    Option Nat :=
  if ¬ t = 0 ∧ t ∈ openedTabIds then some t else activeTabId

/-- Atomic event-loop callbacks interleaving during one invocation: a browser
tab-activation (which runs the global onActivated listener and then, via
triggerTabEvent, the race's tabActivatedHandler, in one callback), the
synchronous part of handleTabRemoved for a closing tab, the asynchronous
continuation of the handler's chrome.tabs.get (resolved with the opener, or
rejected), and the two timer callbacks.  The auto-activation handleTabRemoved
schedules (chrome.tabs.update(...).then(setActiveTabId), lines 510-515)
arrives later as an ordinary tabActivated event of a tracked tab.  Timer
events on a cleared (disarmed) timer are no-ops. -/
inductive RaceEvent where
  | tabActivated (tabId : Nat)
  | tabRemoved (tabId : Nat)
  | tabGetOk (tabId : Nat) (openerTabId : Option Nat)
  | tabGetErr (tabId : Nat)
  | fastTimerFire
  | longTimerFire
  deriving DecidableEq, Repr

/-- A tabGetOk continuation only ever exists for a tab the handler saw as new
(not in the tabsBeforeOperation snapshot, line 759). -/
def eventTargetOK (tabsBeforeOperation : List Nat) : RaceEvent → Bool
  | .tabGetOk t _ => decide (t ∉ tabsBeforeOperation)
  | _ => true

/-- One atomic callback of the race.  tabActivated first runs the global
onActivated listener (part_001 lines 376-402): with waitingForNewTab set, an
untracked tab is added to openedTabIds and activated; an already-tracked tab
is always re-activated (line 394); then triggerTabEvent runs the race's
tabActivatedHandler (lines 754-802), whose early returns (listener removed,
navigationHandled set, or tab in the before-snapshot) are merged into one
disjunction; otherwise it records the detection, clears the fast timer and,
if the tab is still untracked, adds and activates it.  tabRemoved is the
synchronous part of handleTabRemoved (lines 495-520): the tab leaves
openedTabIds and, if it was active, the pointer is nulled.  The
get-continuation commits the new tab only when the opener is the original tab
or absent and navigationHandled is still unset; the fast timer defers to the
long timer once a new tab was detected, otherwise commits the original tab;
the long timer commits the current global activeTabId if a new tab was
detected, the original otherwise.  Every commit path sets navigationHandled
first, making every other path a no-op. -/
def raceStep (initialActiveTabId : Nat) (waitingForNewTab : Bool)
    (tabsBeforeOperation : List Nat) (s : RaceState) : RaceEvent → RaceState
  | .tabActivated t =>
    if t ∉ s.openedTabIds ∧ waitingForNewTab = true then
      if s.listenerActive = false ∨ s.navigationHandled = true ∨
          t ∈ tabsBeforeOperation then
        { s with openedTabIds := t :: s.openedTabIds,
                 activeTabId := setActiveTabId (t :: s.openedTabIds) s.activeTabId t }
      else
        { s with openedTabIds := t :: s.openedTabIds,
                 activeTabId := setActiveTabId (t :: s.openedTabIds) s.activeTabId t,
                 newTabDetected := true, fastTimerArmed := false }
    else if t ∈ s.openedTabIds then
      if s.listenerActive = false ∨ s.navigationHandled = true ∨
          t ∈ tabsBeforeOperation then
        { s with activeTabId := setActiveTabId s.openedTabIds s.activeTabId t }
      else
        { s with activeTabId := setActiveTabId s.openedTabIds s.activeTabId t,
                 newTabDetected := true, fastTimerArmed := false }
    else
      if s.listenerActive = false ∨ s.navigationHandled = true ∨
          t ∈ tabsBeforeOperation then s
      else
        { s with newTabDetected := true, fastTimerArmed := false,
                 openedTabIds := t :: s.openedTabIds,
                 activeTabId := setActiveTabId (t :: s.openedTabIds) s.activeTabId t }
  | .tabRemoved t =>
    if t ∈ s.openedTabIds then
      if s.activeTabId = some t then
        { s with openedTabIds := s.openedTabIds.erase t, activeTabId := none }
      else
        { s with openedTabIds := s.openedTabIds.erase t }
    else s
  | .tabGetOk t opener =>
    if (opener = some initialActiveTabId ∨ opener = none) ∧
        s.navigationHandled = false then
      { s with navigationHandled := true, listenerActive := false,
               longTimerArmed := false,
               commits := s.commits ++
                 [⟨some t, CommitSource.newTabPath, s.newTabDetected⟩] }
    else s
  | .tabGetErr _ => s
  | .fastTimerFire =>
    if s.fastTimerArmed = false then s
    else if s.newTabDetected = true then
      { s with fastTimerArmed := false }
    else if s.navigationHandled = false then
      { s with fastTimerArmed := false, listenerActive := false,
               navigationHandled := true, longTimerArmed := false,
               commits := s.commits ++
                 [⟨some initialActiveTabId, CommitSource.fastTimerPath,
                   s.newTabDetected⟩] }
    else
      { s with fastTimerArmed := false, listenerActive := false }
  | .longTimerFire =>
    if s.longTimerArmed = false then s
    else if s.navigationHandled = true then
      { s with longTimerArmed := false }
    else
      { s with longTimerArmed := false, listenerActive := false,
               fastTimerArmed := false, navigationHandled := true,
               commits := s.commits ++
                 [⟨(if s.newTabDetected = true then s.activeTabId
                    else some initialActiveTabId),
                   CommitSource.longWaitPath, s.newTabDetected⟩] }

/-- Fold a trace of callbacks from the armed state.  waitingForNewTab is the
module global of part_001 line 279, set outside this invocation and treated
as constant over the trace. -/
def runRace (initialActiveTabId : Nat) (waitingForNewTab : Bool)
    (tabsBeforeOperation : List Nat) (evts : List RaceEvent) : RaceState :=
  evts.foldl (raceStep initialActiveTabId waitingForNewTab tabsBeforeOperation)
    (initRaceState initialActiveTabId tabsBeforeOperation)

/-- Invariant of the race: the number of commits tracks the navigationHandled
lock exactly, the long-wait timer is only ever cleared by a commit, and each
commit's target is classified by its path: a not-previously-tracked tab on
the new-tab path, the original tab on the fast path, and the original tab on
the long-wait path when no new tab had been detected (a long-wait commit
after a detection takes whatever tab is globally active). -/
abbrev RaceInv (initialActiveTabId : Nat) (tabsBeforeOperation : List Nat)
    (s : RaceState) : Prop :=
  (s.commits.length = if s.navigationHandled then 1 else 0) ∧
  (s.longTimerArmed = false → s.navigationHandled = true) ∧
  (∀ c ∈ s.commits,
    (c.source = CommitSource.newTabPath →
      ∃ t, c.target = some t ∧ t ∉ tabsBeforeOperation) ∧
    (c.source = CommitSource.fastTimerPath → c.target = some initialActiveTabId) ∧
    (c.source = CommitSource.longWaitPath → c.newTabDetected = false →
      c.target = some initialActiveTabId))

/-! ## Instrumentation session manager: attachDebugger
(src/chrome-extension/services/debuggerService.js lines 53-159) -/

/-- Host responses one attachDebugger call can observe, in call order.  The
clear-override and detach outcomes inside safelyDetachPreviousDebugger are
swallowed (lines 72-86) and do not affect the global state, so they are not
modelled. -/
structure AttachHost where
  alreadyAttached : Bool
  attachOk : Bool
  enablePageOk : Bool
  enableRuntimeOk : Bool
  enableDOMOk : Bool
  verifyAttached : Bool
  deriving DecidableEq, Repr

/-- safelyDetachPreviousDebugger (debuggerService.js lines 53-95) as its
effect on the global debugTarget: no previous target or the same target leave
it alone; any different target is cleared unconditionally (line 94), whatever
the detach attempts did. -/
def safelyDetachPreviousDebugger (tabId : Nat) (debugTarget : Option Nat) : Option Nat :=
  match debugTarget with
  | none => none
  | some t => if t = tabId then some t else none

/-- attachDebugger (debuggerService.js lines 102-159): returns the success
flag and the final global debugTarget.  A falsy tabId (0) returns false
untouched; an existing attachment syncs debugTarget and returns true; the
catch handler clears debugTarget only when it matches tabId; the post-attach
re-verification failure (lines 140-146) returns false WITHOUT clearing the
debugTarget set at line 137. -/
def attachDebugger (tabId : Nat) (debugTarget : Option Nat) (h : AttachHost) :
    Bool × Option Nat :=
  if tabId = 0 then (false, debugTarget)
  else if h.alreadyAttached = true then
    (true, if debugTarget = some tabId then debugTarget else some tabId)
  else if h.attachOk = false then
    (false, if safelyDetachPreviousDebugger tabId debugTarget = some tabId then none
      else safelyDetachPreviousDebugger tabId debugTarget)
  else if h.enablePageOk = false then
    (false, if safelyDetachPreviousDebugger tabId debugTarget = some tabId then none
      else safelyDetachPreviousDebugger tabId debugTarget)
  else if h.enableRuntimeOk = false then
    (false, if safelyDetachPreviousDebugger tabId debugTarget = some tabId then none
      else safelyDetachPreviousDebugger tabId debugTarget)
  else if h.enableDOMOk = false then
    (false, if safelyDetachPreviousDebugger tabId debugTarget = some tabId then none
      else safelyDetachPreviousDebugger tabId debugTarget)
  else if h.verifyAttached = false then
    (false, some tabId)
  else (true, some tabId)

/-! ## Click parameter parsing and the failed-attempt state transition
(src/chrome-extension/services/interactionService.js lines 16-110,
part_001 lines 804-884) -/

/-- JS strings are embedded as character lists for the coordinate parsing.
split(",") on a character list; the empty string splits to [""]. -/
def splitOnComma : List Char → List (List Char)
  | [] => [[]]
  | c :: rest =>
    if c = ',' then [] :: splitOnComma rest
    else
      match splitOnComma rest with
      | [] => [[c]]
      | cur :: others => (c :: cur) :: others

/-- Whitespace trim on both ends, as JS Number performs before parsing. -/
def trimChars (l : List Char) : List Char :=
  ((l.dropWhile Char.isWhitespace).reverse.dropWhile Char.isWhitespace).reverse

/-- Value of a nonempty all-digit character list. -/
def decDigitsVal (l : List Char) : Option Nat :=
  if l = [] then none
  else if l.all Char.isDigit then
    some (l.foldl (fun acc c => acc * 10 + (c.toNat - 48)) 0)
  else none

/-- JS Number coercion on the integer coordinate strings this code handles:
whitespace-trimmed decimal integers with an optional leading minus; the empty
string coerces to 0; anything else is NaN (none).  Fractional, hexadecimal and
plus-signed forms of full JS Number do not occur in "x,y" coordinates and are
not modelled. -/
def jsNumber (l : List Char) : Option Int :=
  match trimChars l with
  | [] => some 0
  | c :: rest =>
    if c = '-' then (decDigitsVal rest).map (fun n => -(n : Int))
    else (decDigitsVal (c :: rest)).map (fun n => (n : Int))

/-- The coordinate parse of performClick (interactionService.js lines 24-27):
coordinateString.split(",").map(Number), destructured into the first two
elements (a missing element is undefined, hence NaN), failing when either is
NaN. -/
def parseCoordinate (coordinateString : List Char) : Option (Int × Int) :=
  match (splitOnComma coordinateString).map jsNumber with
  | some a :: some b :: _ => some (a, b)
  | _ => none

/-- One Input.dispatchMouseEvent host call. -/
structure MouseEvent where
  kind : String
  x : Int
  y : Int
  deriving DecidableEq, Repr

/-- performClick (interactionService.js lines 16-110): active-tab check,
coordinate parse, debugger-attachment check, then the mousePressed and
mouseReleased input dispatches.  The cosmetic visualization step issues no
input dispatch and its failures are swallowed (lines 42-80), so it is
omitted; pressOk/releaseOk are the two sendCommand outcomes, the second call
never attempted when the first throws. -/
def performClick (activeTabId : Option Nat) (debugTarget : Option Nat)
    (coordinateString : List Char) (pressOk releaseOk : Bool) :
    Except String Unit × List MouseEvent :=
  match activeTabId with
  | none => (.error "no tab available for click", [])
  | some tabId =>
    match parseCoordinate coordinateString with
    | none => (.error "invalid coordinate format", [])
    | some (cssX, cssY) =>
      if debugTarget ≠ some tabId then
        (.error "debugger not attached for click", [])
      else if pressOk = false then
        (.error "click failed", [⟨"mousePressed", cssX, cssY⟩])
      else if releaseOk = false then
        (.error "click failed",
         [⟨"mousePressed", cssX, cssY⟩, ⟨"mouseReleased", cssX, cssY⟩])
      else
        (.ok (), [⟨"mousePressed", cssX, cssY⟩, ⟨"mouseReleased", cssX, cssY⟩])

/-- The synchronous spine of waitForTabOperationComplete around a click whose
operationFn may throw (part_001 lines 804-884): the tab state is set to
NAVIGATION_PENDING (line 806) before the operation runs, and the catch resets
it to IDLE (line 882) and rejects; on success the tab stays
NAVIGATION_PENDING for the detection race.  The busy-wait prefix (lines
735-739, bounded per the busy-wait theorems) only delays and does not change
this transition. -/
def clickCommandAttempt (stateBefore : Option TabProcessingState)
    (activeTabId debugTarget : Option Nat) (coordinateString : List Char)
    (pressOk releaseOk : Bool) :
    Option TabProcessingState × Except String Unit × List MouseEvent :=
  match activeTabId with
  | none => (stateBefore, .error "no tab available for click", [])
  | some _ =>
    match performClick activeTabId debugTarget coordinateString pressOk releaseOk with
    | (.error e, calls) => (some .idle, .error e, calls)
    | (.ok _, calls) => (some .navPending, .ok (), calls)

/-! ## Batch executor: handleBatchCommand / executeOperation
(src/chrome-extension/handlers/batchCommandHandler.js) -/

/-- The parameters object of one batch operation; absent fields are none. -/
structure OperationParams where
  coordinate : Option String
  text : Option String
  key : Option String
  combination : Option String
  direction : Option String
  seconds : Option Nat
  deriving DecidableEq, Repr

/-- One batch operation {name, parameters}. -/
structure BatchOperation where
  name : String
  parameters : Option OperationParams
  deriving DecidableEq, Repr

/-- Result of one dispatched operation, as far as the batch loop inspects
it. -/
structure OpResult where
  newTabOpened : Bool
  newTabId : Option Nat
  deriving DecidableEq, Repr

/-- executeOperation (batchCommandHandler.js lines 162-284): per-name
parameter validation, then dispatch through waitForTabOperationComplete /
performSimpleOperation whose outcome is the host oracle value; an unknown
name throws Unsupported operation. -/
def executeOperation (op : BatchOperation) (host : Except String OpResult) :
    Except String OpResult :=
  if op.name = "click" then
    match op.parameters with
    | none => .error "Click operation requires 'coordinate' parameter"
    | some p =>
      match p.coordinate with
      | none => .error "Click operation requires 'coordinate' parameter"
      | some _ => host
  else if op.name = "type" then
    match op.parameters with
    | none => .error "Type operation requires 'text' parameter"
    | some p =>
      match p.text with
      | none => .error "Type operation requires 'text' parameter"
      | some _ => host
  else if op.name = "press_key" then
    match op.parameters with
    | none => .error "Press key operation requires 'key' parameter"
    | some p =>
      match p.key with
      | none => .error "Press key operation requires 'key' parameter"
      | some _ => host
  else if op.name = "press_key_combo" then
    match op.parameters with
    | none => .error "Key combination operation requires 'combination' parameter"
    | some p =>
      match p.combination with
      | none => .error "Key combination operation requires 'combination' parameter"
      | some _ => host
  else if op.name = "scroll" then
    match op.parameters with
    | none => .error "Scroll operation requires 'direction' parameter"
    | some p =>
      match p.direction with
      | none => .error "Scroll operation requires 'direction' parameter"
      | some _ => host
  else if op.name = "wait" then host
  else .error ("Unsupported operation: " ++ op.name)

/-- One entry of the per-step results array the batch loop builds. -/
structure StepEntry where
  op : BatchOperation
  status : String
  error : Option String
  deriving DecidableEq, Repr

/-- The for-loop of handleBatchCommand (lines 64-98): execute step i, push a
success entry and switch the current tab when the step opened a new tab; on a
throw push the error entry and break, executing nothing further.  Returns
the results array, the final current tab id and the list of step indices that
were dispatched (the inter-step interval sleep only delays and carries no
state). -/
def runBatchSteps (exec : Nat → BatchOperation → Except String OpResult) :
    List BatchOperation → Nat → Nat → List StepEntry × Nat × List Nat
  | [], _, currentTabId => ([], currentTabId, [])
  | op :: rest, i, currentTabId =>
    match exec i op with
    | .ok r =>
      let rec2 := runBatchSteps exec rest (i + 1)
        (if r.newTabOpened = true ∧ r.newTabId.isSome
          then r.newTabId.getD currentTabId else currentTabId)
      (⟨op, "success", none⟩ :: rec2.1, rec2.2.1, i :: rec2.2.2)
    | .error e => ([⟨op, "error", some e⟩], currentTabId, [i])

/-- First failing step of a batch under a given executor, with its error. -/
def firstFailure (exec : Nat → BatchOperation → Except String OpResult) :
    List BatchOperation → Nat → Option (Nat × String)
  | [], _ => none
  | op :: rest, i =>
    match exec i op with
    | .ok _ => firstFailure exec rest (i + 1)
    | .error e => some (i, e)

/-- The aggregate batch response sent to the orchestrator. -/
structure BatchResponse where
  status : String
  operations : Option (List StepEntry)
  screenshot : Option String
  currentUrl : Option String
  message : String
  deriving DecidableEq, Repr

/-- handleBatchCommand (batchCommandHandler.js lines 23-153): empty batches
and a missing active tab produce error responses before any step runs; the
steps run fail-fast through executeOperation with the host oracle for the
dispatched outcomes; afterwards, if the final current tab is no longer
tracked the response still has status success (without a screenshot, line
109); otherwise the final screenshot capture and tab lookup run, and only
their own exceptions fall to the outer catch (lines 138-152) producing an
error response.  finalOpenedTabIds is the tracked-tab set at the post-loop
check (line 107). -/
def handleBatchCommand (operations : List BatchOperation) (activeTabId : Option Nat)
    (host : Nat → Except String OpResult) (finalOpenedTabIds : List Nat)
    (capture : Except String String) (tabUrl : Except String String) : BatchResponse :=
  if operations = [] then
    ⟨"error", none, none, none, "No operations provided for batch command"⟩
  else
    match activeTabId with
    | none => ⟨"error", none, none, none, "no tab available for batch"⟩
    | some targetTabId =>
      match runBatchSteps (fun i op => executeOperation op (host i))
          operations 0 targetTabId with
      | (results, currentTabId, _) =>
        if currentTabId ∉ finalOpenedTabIds then
          ⟨"success", some results, none, none,
           "Batch operations completed, but tab no longer exists"⟩
        else
          match capture with
          | .error e => ⟨"error", none, none, none, e⟩
          | .ok shot =>
            match tabUrl with
            | .error e => ⟨"error", none, none, none, e⟩
            | .ok url =>
              ⟨"success", some results, some shot, some url,
               "Executed operations in batch"⟩

/-! ## Theorems -/

theorem mem_map_removePending {l : List PendingEntry} {rid x : Nat} :
    x ∈ (removePending l rid).map PendingEntry.requestId ↔
      x ∈ l.map PendingEntry.requestId ∧ x ≠ rid := by
  simp only [removePending, List.mem_map, List.mem_filter, decide_eq_true_eq]
  constructor
  · rintro ⟨a, ⟨ha, hne⟩, rfl⟩
    exact ⟨⟨a, ha, rfl⟩, hne⟩
  · rintro ⟨⟨a, ha, rfl⟩, hne⟩
    exact ⟨a, ⟨ha, hne⟩, rfl⟩

theorem nodup_map_removePending {l : List PendingEntry}
    (h : (l.map PendingEntry.requestId).Nodup) (rid : Nat) :
    ((removePending l rid).map PendingEntry.requestId).Nodup := by
  refine List.Nodup.sublist ?_ h
  exact List.Sublist.map _ (List.filter_sublist _)

theorem settleCount_single (x : Settlement) (r : Nat) :
    settleCount [x] r = if settlementId x = r then 1 else 0 := by
  by_cases h : settlementId x = r <;> simp [settleCount, h]

theorem settleCount_nil (r : Nat) : settleCount [] r = 0 := rfl

theorem settleCount_append (a b : List Settlement) (r : Nat) :
    settleCount (a ++ b) r = settleCount a r + settleCount b r := by
  simp [settleCount, List.filter_append]

/-- Keeping the full state and settling nothing respects the potential. -/
theorem phi_noop (s : ClientState) (r : Nat) (hwf : ClientWF s) :
    ClientWF s ∧ settleCount [] r + phi s r ≤ phi s r := by
  refine ⟨hwf, ?_⟩
  rw [settleCount_nil, Nat.zero_add]

/-- Settling a pending id rid by deleting it and emitting one settlement for it
respects the potential. -/
theorem phi_settle (s : ClientState) (r rid : Nat) (hwf : ClientWF s)
    (hmem : rid ∈ pendingIds s) (eff : Settlement) (heff : settlementId eff = rid) :
    ClientWF { s with pendingRequests := removePending s.pendingRequests rid } ∧
      settleCount [eff] r +
        phi { s with pendingRequests := removePending s.pendingRequests rid } r ≤
        phi s r := by
  obtain ⟨hnd, hlt⟩ := hwf
  have hmem2 : ∀ x : Nat, x ∈ pendingIds
      { s with pendingRequests := removePending s.pendingRequests rid } ↔
      x ∈ pendingIds s ∧ x ≠ rid := fun x => mem_map_removePending
  refine ⟨⟨nodup_map_removePending hnd rid, fun x hx => hlt x ((hmem2 x).mp hx).1⟩, ?_⟩
  rw [settleCount_single, heff]
  unfold phi
  rw [show ({ s with pendingRequests := removePending s.pendingRequests rid } :
      ClientState).requestIdCounter = s.requestIdCounter from rfl]
  by_cases hr : r = rid
  · cases hr
    rw [if_pos rfl, if_pos hmem, if_neg (fun hx => ((hmem2 r).mp hx).2 rfl)]
    omega
  · rw [if_neg (fun h => hr h.symm)]
    by_cases h2 : r ∈ pendingIds s
    · rw [if_pos h2, if_pos ((hmem2 r).mpr ⟨h2, hr⟩)]
      omega
    · rw [if_neg h2, if_neg (fun hx => h2 ((hmem2 r).mp hx).1)]
      omega

/-- Delivery of a message whose requestId has no pending entry and which is not
a viewportSync control message is a no-op (handleMessageFromClient lines
316-323 of chrome-client.js). -/
theorem handleMessage_drop (s : ClientState) (m : ClientMessage) (r : Nat)
    (hnv : ¬ (m.command = some "viewportSync" ∧ m.viewport.isSome))
    (hm : m.requestId = some r)
    (hnp : s.pendingRequests.find? (fun p => p.requestId = r) = none) :
    handleMessageFromClient s m = (s, []) := by
  have hB : ¬ (m.requestId = none ∧ m.command = some "setViewportConfig" ∧
      m.status = some "ack") := by
    rw [hm]
    rintro ⟨h, -⟩
    cases h
  unfold handleMessageFromClient
  rw [if_neg hnv, if_neg hB]
  split
  · rfl
  · rename_i rid heq
    rw [hm] at heq
    obtain rfl : r = rid := by
      injection heq
    rw [hnp]

/-- One client callback preserves well-formedness and consumes potential for
every settlement it emits. -/
theorem clientStep_phi (s : ClientState) (r : Nat) (hwf : ClientWF s) (e : ClientEvent) :
    ClientWF (clientStep s e).1 ∧
      settleCount (clientStep s e).2 r + phi (clientStep s e).1 r ≤ phi s r := by
  obtain ⟨hnd, hlt⟩ := hwf
  cases e with
  | send cmd =>
    have hpend : pendingIds (clientStep s (.send cmd)).1
        = pendingIds s ++ [s.requestIdCounter] := by
      simp [clientStep, pendingIds]
    have hcnt : (clientStep s (.send cmd)).1.requestIdCounter
        = s.requestIdCounter + 1 := rfl
    constructor
    · constructor
      · rw [hpend]
        refine List.Nodup.append hnd (List.nodup_singleton _) ?_
        intro x hx hx2
        rcases List.mem_singleton.mp hx2 with rfl
        exact absurd (hlt _ hx) (Nat.lt_irrefl _)
      · intro x hx
        rw [hpend, List.mem_append, List.mem_singleton] at hx
        rw [hcnt]
        rcases hx with hx | rfl
        · exact Nat.lt_succ_of_lt (hlt x hx)
        · exact Nat.lt_succ_self _
    · show settleCount [] r + phi (clientStep s (.send cmd)).1 r ≤ phi s r
      rw [settleCount_nil, Nat.zero_add]
      unfold phi
      rw [hpend, hcnt]
      simp only [List.mem_append, List.mem_singleton]
      by_cases h1 : r ∈ pendingIds s
      · have h2 : r < s.requestIdCounter := hlt r h1
        rw [if_pos (Or.inl h1), if_pos h1, if_neg (by omega), if_neg (by omega)]
      · by_cases h3 : r = s.requestIdCounter
        · cases h3
          rw [if_pos (Or.inr rfl), if_neg h1, if_pos (Nat.le_refl _), if_neg (by omega)]
        · rw [if_neg (by intro h; rcases h with h | h; exact h1 h; exact h3 h),
            if_neg h1]
          by_cases h4 : s.requestIdCounter ≤ r
          · rw [if_pos h4, if_pos (by omega)]
          · rw [if_neg h4, if_neg (by omega)]
  | timeoutFire rid =>
    by_cases h : (s.pendingRequests.find? (fun p => p.requestId = rid)).isSome
    · obtain ⟨p, hp⟩ := Option.isSome_iff_exists.mp h
      have hpr : p.requestId = rid := by
        simpa using List.find?_some hp
      have hmem : rid ∈ pendingIds s := hpr ▸
        List.mem_map_of_mem PendingEntry.requestId (List.mem_of_find?_eq_some hp)
      have hstep : clientStep s (.timeoutFire rid)
          = ({ s with pendingRequests := removePending s.pendingRequests rid },
             [Settlement.rejected rid]) := by
        simp [clientStep, h]
      rw [hstep]
      exact phi_settle s r rid ⟨hnd, hlt⟩ hmem (Settlement.rejected rid) rfl
    · have hstep : clientStep s (.timeoutFire rid) = (s, []) := by
        simp [clientStep, h]
      rw [hstep]
      exact phi_noop s r ⟨hnd, hlt⟩
  | deliver m =>
    show ClientWF (handleMessageFromClient s m).1 ∧
      settleCount (handleMessageFromClient s m).2 r +
        phi (handleMessageFromClient s m).1 r ≤ phi s r
    unfold handleMessageFromClient
    split
    · exact phi_noop s r ⟨hnd, hlt⟩
    · split
      · split
        · rename_i p hp
          exact phi_settle s r p.requestId ⟨hnd, hlt⟩
            (List.mem_map_of_mem PendingEntry.requestId (List.mem_of_find?_eq_some hp))
            (Settlement.resolved p.requestId) rfl
        · exact phi_noop s r ⟨hnd, hlt⟩
      · split
        · exact phi_noop s r ⟨hnd, hlt⟩
        · rename_i rid heq
          split
          · exact phi_noop s r ⟨hnd, hlt⟩
          · rename_i p hp
            have hpr : p.requestId = rid := by
              simpa using List.find?_some hp
            have hmem : rid ∈ pendingIds s := hpr ▸
              List.mem_map_of_mem PendingEntry.requestId (List.mem_of_find?_eq_some hp)
            split
            · exact phi_settle s r rid ⟨hnd, hlt⟩ hmem (Settlement.rejected rid) rfl
            · split
              · exact phi_settle s r rid ⟨hnd, hlt⟩ hmem (Settlement.resolved rid) rfl
              · exact phi_settle s r rid ⟨hnd, hlt⟩ hmem (Settlement.rejected rid) rfl

/-- Running any event sequence consumes potential for every settlement. -/
theorem runClient_phi (evts : List ClientEvent) (s : ClientState) (r : Nat)
    (hwf : ClientWF s) :
    ClientWF (runClient s evts).1 ∧
      settleCount (runClient s evts).2 r + phi (runClient s evts).1 r ≤ phi s r := by
  induction evts generalizing s with
  | nil => exact ⟨hwf, (phi_noop s r hwf).2⟩
  | cons e es ih =>
    obtain ⟨hwf1, h1⟩ := clientStep_phi s r hwf e
    obtain ⟨hwf2, h2⟩ := ih (clientStep s e).1 hwf1
    refine ⟨hwf2, ?_⟩
    show settleCount ((clientStep s e).2 ++ (runClient (clientStep s e).1 es).2) r
        + phi (runClient (clientStep s e).1 es).1 r ≤ phi s r
    rw [settleCount_append]
    omega

/-- C1 (amended).  For every request id issued by sendMessageToClient, the
promise created by waitForResponse is settled at most once across any sequence
of deliveries, timeouts and further sends; a delivered message whose requestId
has no pending entry settles nothing and leaves the whole client state
unchanged, unless it is a viewportSync control message with a viewport payload,
which still updates the stored viewport (the unamended claim asserted no effect
on client state for every such message). -/
theorem C1_requestId_settled_at_most_once (s : ClientState) (hwf : ClientWF s)
    (evts : List ClientEvent) (r : Nat) (m : ClientMessage)
    (hm : m.requestId = some r)
    (hnp : (runClient s evts).1.pendingRequests.find? (fun p => p.requestId = r) = none)
    (hnv : ¬ (m.command = some "viewportSync" ∧ m.viewport.isSome)) :
    settleCount (runClient s evts).2 r ≤ 1 ∧
      handleMessageFromClient (runClient s evts).1 m = ((runClient s evts).1, []) := by
  obtain ⟨hwf2, hle⟩ := runClient_phi evts s r hwf
  constructor
  · have hphi : phi s r ≤ 1 := by
      unfold phi
      by_cases h1 : r ∈ pendingIds s
      · have h2 : r < s.requestIdCounter := hwf.2 r h1
        rw [if_pos h1, if_neg (by omega)]
      · rw [if_neg h1]
        split <;> omega
    omega
  · exact handleMessage_drop _ m r hnv hm hnp

def c1State : ClientState := ⟨[], ⟨1080, 800⟩, none, 5⟩

def c1Msg : ClientMessage := ⟨some 0, some "viewportSync", none, some ⟨500, 400⟩, none, none⟩

/-- C1 counterexample.  A delivered message carrying requestId 0, for which no
pending entry exists, is not dropped without effect on client state: because its
command is viewportSync with a viewport payload, handleMessageFromClient updates
the stored viewport.  This refutes the claim that any message whose requestId
has no pending entry is silently dropped with no effect on client state. -/
theorem C1_counterexample :
    c1Msg.requestId = some 0 ∧
      c1State.pendingRequests.find? (fun p => p.requestId = 0) = none ∧
      (handleMessageFromClient c1State c1Msg).1.viewport ≠ c1State.viewport := by
  refine ⟨rfl, rfl, ?_⟩
  decide

/-- Concrete run used by the C1 witness: a request is sent, its response
delivered, then a duplicate response arrives. -/
def c1WitnessEvents : List ClientEvent :=
  [ClientEvent.send "click",
   ClientEvent.deliver ⟨some 0, some "click", some "success", none, none, none⟩]

def c1WitnessMsg : ClientMessage := ⟨some 0, some "click", some "success", none, none, none⟩

theorem C1_witness :
    settleCount (runClient c1State c1WitnessEvents).2 0 ≤ 1 ∧
      handleMessageFromClient (runClient c1State c1WitnessEvents).1 c1WitnessMsg
        = ((runClient c1State c1WitnessEvents).1, []) :=
  C1_requestId_settled_at_most_once c1State (by decide)
    c1WitnessEvents 0 c1WitnessMsg rfl (by decide) (by decide)

/-- C9 (amended).  A setViewportConfig acknowledgement without a correlation id
resolves the FIRST-INSERTED (oldest) pending entry whose command is
setViewportConfig, removing it from the pending map; if no pending entry
matches, the message is dropped without error and the state is unchanged.  (The
unamended claim said the most recent matching entry is resolved; the scan
iterates the Map in insertion order and commits to the first match.) -/
theorem C9_viewport_ack_resolves_oldest (s : ClientState) (m : ClientMessage)
    (hrid : m.requestId = none) (hcmd : m.command = some "setViewportConfig")
    (hst : m.status = some "ack") :
    (∀ p, s.pendingRequests.find? (fun q => q.command = "setViewportConfig") = some p →
        handleMessageFromClient s m
          = ({ s with pendingRequests := removePending s.pendingRequests p.requestId },
             [Settlement.resolved p.requestId])) ∧
    (s.pendingRequests.find? (fun q => q.command = "setViewportConfig") = none →
        handleMessageFromClient s m = (s, [])) := by
  have hnv : ¬ (m.command = some "viewportSync" ∧ m.viewport.isSome) := by
    rw [hcmd]
    rintro ⟨h, -⟩
    exact absurd h (by decide)
  constructor
  · intro p hp
    unfold handleMessageFromClient
    rw [if_neg hnv, if_pos ⟨hrid, hcmd, hst⟩, hp]
  · intro hp
    unfold handleMessageFromClient
    rw [if_neg hnv, if_pos ⟨hrid, hcmd, hst⟩, hp]

def c9State : ClientState :=
  ⟨[⟨0, "setViewportConfig"⟩, ⟨1, "setViewportConfig"⟩], ⟨1080, 800⟩, none, 2⟩

def c9Msg : ClientMessage := ⟨none, some "setViewportConfig", some "ack", none, none, none⟩

/-- C9 counterexample.  With two pending setViewportConfig entries, of which the
entry with id 1 is the most recent, the uncorrelated ack resolves entry 0 (the
oldest), not the most recent entry 1: the claim that the most recent matching
entry is resolved is false. -/
theorem C9_counterexample :
    (handleMessageFromClient c9State c9Msg).2 = [Settlement.resolved 0] ∧
      c9State.pendingRequests.getLast? = some ⟨1, "setViewportConfig"⟩ ∧
      Settlement.resolved 0 ≠ Settlement.resolved 1 := by
  decide

theorem C9_witness :
    handleMessageFromClient c9State c9Msg
      = ({ c9State with pendingRequests := removePending c9State.pendingRequests 0 },
         [Settlement.resolved 0]) :=
  (C9_viewport_ack_resolves_oldest c9State c9Msg rfl rfl rfl).1
    ⟨0, "setViewportConfig"⟩ (by decide)

/-- Full characterization of the checkState polling loop: it resolves at the
first terminal observation, or force-resets once the elapsed time exceeds the
bound, always within timeout / busyPollMs + 1 polls of its start. -/
theorem checkState_main (obs : Nat → Option TabProcessingState) (timeout i : Nat) :
    (∀ k, checkState obs timeout i = .resolvedAt k →
        i ≤ k ∧ k ≤ max i (timeout / busyPollMs + 1) ∧ ¬ busyObs obs k ∧
        ∀ j, i ≤ j → j < k → busyObs obs j) ∧
    (∀ k, checkState obs timeout i = .forceResetAt k →
        i ≤ k ∧ k ≤ max i (timeout / busyPollMs + 1) ∧ busyPollMs * k > timeout ∧
        ∀ j, i ≤ j → j ≤ k → busyObs obs j) := by
  by_cases h1 : obs i = none ∨ obs i = some .completed ∨ obs i = some .idle
  · have heq : checkState obs timeout i = .resolvedAt i := by
      rw [checkState, if_pos h1]
    constructor
    · intro k hk
      rw [heq] at hk
      obtain rfl : i = k := by injection hk
      exact ⟨le_refl _, le_max_left _ _, fun hb => hb h1, fun j h2 h3 => absurd h3 (by omega)⟩
    · intro k hk
      rw [heq] at hk
      cases hk
  · by_cases h2 : busyPollMs * i > timeout
    · have heq : checkState obs timeout i = .forceResetAt i := by
        rw [checkState, if_neg h1, if_pos h2]
      constructor
      · intro k hk
        rw [heq] at hk
        cases hk
      · intro k hk
        rw [heq] at hk
        obtain rfl : i = k := by injection hk
        refine ⟨le_refl _, le_max_left _ _, h2, fun j h3 h4 => ?_⟩
        obtain rfl : j = i := by omega
        exact h1
    · have heq : checkState obs timeout i = checkState obs timeout (i + 1) := by
        rw [checkState, if_neg h1, if_neg h2]
      have hle : i ≤ timeout / busyPollMs := by
        simp only [busyPollMs] at h2 ⊢
        omega
      have IH := checkState_main obs timeout (i + 1)
      have hmax : max (i + 1) (timeout / busyPollMs + 1) = timeout / busyPollMs + 1 :=
        max_eq_right (by omega)
      constructor
      · intro k hk
        rw [heq] at hk
        obtain ⟨ha, hb, hc, hd⟩ := IH.1 k hk
        rw [hmax] at hb
        refine ⟨by omega, le_trans hb (le_max_right _ _), hc, fun j h3 h4 => ?_⟩
        rcases Nat.eq_or_lt_of_le h3 with rfl | h5
        · exact h1
        · exact hd j h5 h4
      · intro k hk
        rw [heq] at hk
        obtain ⟨ha, hb, hc, hd⟩ := IH.2 k hk
        rw [hmax] at hb
        refine ⟨by omega, le_trans hb (le_max_right _ _), hc, fun j h3 h4 => ?_⟩
        rcases Nat.eq_or_lt_of_le h3 with rfl | h5
        · exact h1
        · exact hd j h5 h4
termination_by timeout + 1 - busyPollMs * i
decreasing_by simp only [busyPollMs] at *; omega

/-- C3.  When a command starts on a busy tab, the coordinator waits (polling
every busyPollMs) until the state becomes Idle or Completed or the entry
disappears; the wait is bounded by its 10 s bound plus one poll, on exceeding
the bound it force-resets the state to Idle and resolves normally, and it
never rejects (every BusyWaitOutcome constructor is a resolution of
waitForTabProcessingComplete, whose reject continuation the source never
calls). -/
theorem C3_busy_wait_bounded_and_self_healing (obs : Nat → Option TabProcessingState) :
    busyWaitPoll (waitForTabProcessingComplete obs coordinatorBusyWaitMs)
        ≤ coordinatorBusyWaitMs / busyPollMs + 1 ∧
    (∀ k, waitForTabProcessingComplete obs coordinatorBusyWaitMs = .resolvedAt k →
        (obs k = none ∨ obs k = some .completed ∨ obs k = some .idle) ∧
        ∀ j, j < k → busyObs obs j) ∧
    (∀ k, waitForTabProcessingComplete obs coordinatorBusyWaitMs = .forceResetAt k →
        busyPollMs * k > coordinatorBusyWaitMs ∧
        busyWaitFinalEntry obs coordinatorBusyWaitMs = some .idle ∧
        ∀ j, j ≤ k → busyObs obs j) := by
  have hcs := checkState_main obs coordinatorBusyWaitMs 0
  have hmax : max 0 (coordinatorBusyWaitMs / busyPollMs + 1)
      = coordinatorBusyWaitMs / busyPollMs + 1 := max_eq_right (Nat.zero_le _)
  unfold waitForTabProcessingComplete
  by_cases hb : obs 0 = some .batchProcessing
  · rw [if_pos hb]
    refine ⟨Nat.zero_le _, ?_, ?_⟩
    · intro k hk
      cases hk
    · intro k hk
      cases hk
  · rw [if_neg hb]
    by_cases hc : obs 0 = none ∨ obs 0 = some .completed
    · rw [if_pos hc]
      refine ⟨Nat.zero_le _, ?_, ?_⟩
      · intro k hk
        cases hk
      · intro k hk
        cases hk
    · rw [if_neg hc]
      refine ⟨?_, ?_, ?_⟩
      · rcases hout : checkState obs coordinatorBusyWaitMs 0 with _ | k | k
        · exact Nat.zero_le _
        · have := (hcs.1 k hout).2.1
          rw [hmax] at this
          simpa [busyWaitPoll] using this
        · have := (hcs.2 k hout).2.1
          rw [hmax] at this
          simpa [busyWaitPoll] using this
      · intro k hk
        obtain ⟨-, -, hterm, hbusy⟩ := hcs.1 k hk
        exact ⟨by_contra fun hn => hterm hn, fun j hj => hbusy j (Nat.zero_le _) hj⟩
      · intro k hk
        obtain ⟨-, -, hgt, hbusy⟩ := hcs.2 k hk
        refine ⟨hgt, ?_, fun j hj => hbusy j (Nat.zero_le _) hj⟩
        unfold busyWaitFinalEntry waitForTabProcessingComplete
        rw [if_neg hb, if_neg hc, hk]

def c3BusyObs : Nat → Option TabProcessingState := fun _ => some .stabilizing

theorem checkState_ne_immediate (obs : Nat → Option TabProcessingState) (timeout i : Nat) :
    checkState obs timeout i ≠ .immediate := by
  by_cases h1 : obs i = none ∨ obs i = some .completed ∨ obs i = some .idle
  · rw [checkState, if_pos h1]
    simp
  · by_cases h2 : busyPollMs * i > timeout
    · rw [checkState, if_neg h1, if_pos h2]
      simp
    · rw [checkState, if_neg h1, if_neg h2]
      exact checkState_ne_immediate obs timeout (i + 1)
termination_by timeout + 1 - busyPollMs * i
decreasing_by simp only [busyPollMs] at *; omega

theorem c3BusyObs_forceReset :
    waitForTabProcessingComplete c3BusyObs coordinatorBusyWaitMs = .forceResetAt 21 := by
  have hmain := checkState_main c3BusyObs coordinatorBusyWaitMs 0
  have hne := checkState_ne_immediate c3BusyObs coordinatorBusyWaitMs 0
  have hw : waitForTabProcessingComplete c3BusyObs coordinatorBusyWaitMs
      = checkState c3BusyObs coordinatorBusyWaitMs 0 := by
    unfold waitForTabProcessingComplete
    rw [if_neg (by simp [c3BusyObs]), if_neg (by simp [c3BusyObs])]
  rw [hw]
  rcases hout : checkState c3BusyObs coordinatorBusyWaitMs 0 with _ | k | k
  · exact absurd hout hne
  · exact absurd (show busyObs c3BusyObs k by simp [c3BusyObs, busyObs])
      (fun hb => (hmain.1 k hout).2.2.1 hb)
  · obtain ⟨-, hb, hgt, -⟩ := hmain.2 k hout
    rw [max_eq_right (Nat.zero_le _)] at hb
    simp only [busyPollMs, coordinatorBusyWaitMs] at hb hgt
    have hk : k = 21 := by omega
    rw [hk]

theorem C3_witness :
    busyPollMs * 21 > coordinatorBusyWaitMs ∧
      busyWaitFinalEntry c3BusyObs coordinatorBusyWaitMs = some TabProcessingState.idle ∧
      ∀ j, j ≤ 21 → busyObs c3BusyObs j :=
  (C3_busy_wait_bounded_and_self_healing c3BusyObs).2.2 21 c3BusyObs_forceReset

theorem sampleDuration_le (r : RawSample) : sampleDuration r ≤ 50 := by
  cases r <;> simp [sampleDuration]

/-- The stability loop, given enough fuel, never exhausts it and returns with
elapsed time at most the timeout plus one settle sleep and one poll
interval. -/
theorem stableLoop_no_fuelOut (samples : Nat → RawSample)
    (timeout checkInterval stableIterations : Nat) (hci : 0 < checkInterval) :
    ∀ fuel k last count ec elapsed, timeout - elapsed + 2 ≤ fuel →
      stableLoop samples timeout checkInterval stableIterations fuel k last count ec elapsed
        ≠ .fuelOut ∧
      stableElapsed (stableLoop samples timeout checkInterval stableIterations fuel
          k last count ec elapsed) ≤ max elapsed (timeout + 50 + checkInterval) := by
  intro fuel
  induction fuel with
  | zero =>
    intro k last count ec elapsed h
    omega
  | succ fuel ih =>
    intro k last count ec elapsed hfuel
    simp only [stableLoop]
    by_cases h1 : elapsed < timeout
    · rw [if_pos h1]
      split
      · rename_i ec2 heq
        by_cases h2 : timeout < elapsed + 50 + checkInterval + checkInterval
        · rw [if_pos h2]
          refine ⟨by simp, ?_⟩
          have h3 := le_max_right elapsed (timeout + 50 + checkInterval)
          simp only [stableElapsed]
          omega
        · rw [if_neg h2]
          have hrec := ih (k + 1) last count ec2 (elapsed + 50 + checkInterval) (by omega)
          refine ⟨hrec.1, ?_⟩
          have h4 : max (elapsed + 50 + checkInterval) (timeout + 50 + checkInterval)
              = timeout + 50 + checkInterval := max_eq_right (by omega)
          have h5 := hrec.2
          rw [h4] at h5
          exact le_trans h5 (le_max_right _ _)
      · rename_i v ec2 heq
        have hd := sampleDuration_le (samples k)
        have h3 := le_max_right elapsed (timeout + 50 + checkInterval)
        by_cases h2 : v = -1
        · rw [if_pos h2]
          refine ⟨by simp, ?_⟩
          simp only [stableElapsed]
          omega
        · rw [if_neg h2]
          by_cases h4 : stableIterations ≤ (if last ≠ 0 ∧ v = last then count + 1 else 0)
          · rw [if_pos h4]
            refine ⟨by simp, ?_⟩
            simp only [stableElapsed]
            omega
          · rw [if_neg h4]
            have hrec := ih (k + 1) v (if last ≠ 0 ∧ v = last then count + 1 else 0) ec2
              (elapsed + sampleDuration (samples k) + checkInterval) (by omega)
            refine ⟨hrec.1, ?_⟩
            have h5 : max (elapsed + sampleDuration (samples k) + checkInterval)
                (timeout + 50 + checkInterval)
                = timeout + 50 + checkInterval := max_eq_right (by omega)
            have h6 := hrec.2
            rw [h5] at h6
            exact le_trans h6 (le_max_right _ _)
    · rw [if_neg h1]
      refine ⟨by simp, ?_⟩
      simp only [stableElapsed]
      exact le_max_left _ _

/-- C5.  waitTillHTMLStable terminates on every input and resolves without
throwing: the loop catches every sampling throw, so the outcome is always one
of stable, tabGone or timedOut (never the fuel artifact), the elapsed time at
return is at most timeout + 50 + checkInterval (one settle sleep and one poll
interval past the timeout), timeout expiry yields the normal timedOut return,
and if the target tab no longer exists at the first sample the call returns
immediately at elapsed 0. -/
theorem C5_stability_wait_always_returns (samples : Nat → RawSample)
    (timeout checkInterval stableIterations : Nat) (hci : 0 < checkInterval) :
    waitTillHTMLStable samples timeout checkInterval stableIterations ≠ .fuelOut ∧
    stableElapsed (waitTillHTMLStable samples timeout checkInterval stableIterations)
      ≤ timeout + 50 + checkInterval ∧
    (samples 0 = .tabMissing → 0 < timeout →
      waitTillHTMLStable samples timeout checkInterval stableIterations = .tabGone 0) := by
  have h := stableLoop_no_fuelOut samples timeout checkInterval stableIterations hci
    (timeout + 2) 0 0 0 0 0 (by omega)
  refine ⟨h.1, ?_, ?_⟩
  · have h2 := h.2
    rw [Nat.zero_max] at h2
    exact h2
  · intro h0 ht
    unfold waitTillHTMLStable
    rw [show timeout + 2 = (timeout + 1) + 1 from rfl]
    simp only [stableLoop]
    rw [if_pos ht, h0]
    simp [getHtmlSize, sampleDuration]

theorem C5_witness :
    (waitTillHTMLStable (fun _ => RawSample.errOther) 1200 500 3 ≠ .fuelOut ∧
      stableElapsed (waitTillHTMLStable (fun _ => RawSample.errOther) 1200 500 3)
        ≤ 1200 + 50 + 500) ∧
    waitTillHTMLStable (fun _ => RawSample.tabMissing) 1200 500 3 = .tabGone 0 := by
  refine ⟨⟨?_, ?_⟩, ?_⟩
  · exact (C5_stability_wait_always_returns (fun _ => RawSample.errOther) 1200 500 3
      (by decide)).1
  · exact (C5_stability_wait_always_returns (fun _ => RawSample.errOther) 1200 500 3
      (by decide)).2.1
  · exact (C5_stability_wait_always_returns (fun _ => RawSample.tabMissing) 1200 500 3
      (by decide)).2.2 rfl (by decide)

/-- On an error-free run the loop returns stable exactly when some iteration j
inside the poll window reaches stableIterations on the pair counter. -/
theorem stableLoop_pure_stable_iff (v : Nat → Nat) (timeout checkInterval si : Nat) :
    ∀ fuel k, timeout - pureElapsed checkInterval k + 2 ≤ fuel →
      (isStableOutcome (stableLoop (pureSamples v) timeout checkInterval si fuel k
          (lastSize v k) (stableCountAt v k) 0 (pureElapsed checkInterval k)) = true ↔
        ∃ j, k ≤ j ∧ pureElapsed checkInterval j < timeout ∧
          si ≤ stableCountAt v (j + 1)) := by
  intro fuel
  induction fuel with
  | zero =>
    intro k h
    exact absurd h (by omega)
  | succ fuel ih =>
    intro k hfuel
    simp only [stableLoop]
    by_cases h1 : pureElapsed checkInterval k < timeout
    · rw [if_pos h1]
      have hg : getHtmlSize 0 (pureSamples v k) = (.val ((v k : Int)), 0) := rfl
      split
      · rename_i ec2 heq
        rw [hg] at heq
        exact absurd heq (by simp)
      · rename_i v2 ec2 heq
        rw [hg] at heq
        obtain ⟨hv2, hec2⟩ : (v k : Int) = v2 ∧ (0 : Nat) = ec2 := by
          injection heq with ha hb
          injection ha with ha
          exact ⟨ha, hb⟩
        subst hv2
        cases hec2
        rw [if_neg (by omega : ¬ ((v k : Int)) = -1)]
        have hcnt : (if lastSize v k ≠ 0 ∧ (v k : Int) = lastSize v k
            then stableCountAt v k + 1 else 0) = stableCountAt v (k + 1) := rfl
        rw [hcnt]
        by_cases h2 : si ≤ stableCountAt v (k + 1)
        · rw [if_pos h2]
          simp only [isStableOutcome]
          constructor
          · intro _
            exact ⟨k, le_refl _, h1, h2⟩
          · intro _
            trivial
        · rw [if_neg h2]
          have hpe : pureElapsed checkInterval (k + 1)
              = pureElapsed checkInterval k + (50 + checkInterval) := by
            simp only [pureElapsed]
            ring
          have hstep : pureElapsed checkInterval k + sampleDuration (pureSamples v k)
              + checkInterval = pureElapsed checkInterval (k + 1) := by
            simp only [sampleDuration, pureSamples]
            omega
          rw [hstep]
          have hrec := ih (k + 1) (by omega)
          constructor
          · intro hst
            obtain ⟨j, hj1, hj2, hj3⟩ := hrec.mp hst
            exact ⟨j, by omega, hj2, hj3⟩
          · rintro ⟨j, hj1, hj2, hj3⟩
            apply hrec.mpr
            refine ⟨j, ?_, hj2, hj3⟩
            rcases Nat.eq_or_lt_of_le hj1 with rfl | h5
            · exact absurd hj3 h2
            · omega
    · rw [if_neg h1]
      simp only [isStableOutcome]
      constructor
      · intro h
        cases h
      · rintro ⟨j, hj1, hj2, hj3⟩
        have hmono : k * (50 + checkInterval) ≤ j * (50 + checkInterval) :=
          Nat.mul_le_mul_right _ hj1
        simp only [pureElapsed] at h1 hj2
        omega

/-- The pair counter reaches m after sample j exactly when the m pairs ending
at sample j are all equal with nonzero left member, i.e. samples
j - m .. j are m + 1 consecutive equal nonzero samples. -/
theorem stableCountAt_ge_iff (v : Nat → Nat) :
    ∀ m j, m ≤ stableCountAt v (j + 1) ↔
      (m ≤ j ∧ ∀ i, j - m ≤ i → i < j → (v i ≠ 0 ∧ v (i + 1) = v i)) := by
  intro m
  induction m with
  | zero =>
    intro j
    constructor
    · intro _
      exact ⟨Nat.zero_le _, fun i h1 h2 => absurd h2 (by omega)⟩
    · intro _
      exact Nat.zero_le _
  | succ m ih =>
    intro j
    cases j with
    | zero =>
      have h0 : stableCountAt v 1 = 0 := by
        simp [stableCountAt, lastSize]
      rw [h0]
      constructor
      · intro h
        exact absurd h (by omega)
      · rintro ⟨h, -⟩
        exact absurd h (by omega)
    | succ j =>
      have hexp : stableCountAt v (j + 2)
          = if (v j : Int) ≠ 0 ∧ (v (j + 1) : Int) = (v j : Int)
            then stableCountAt v (j + 1) + 1 else 0 := rfl
      rw [hexp]
      by_cases hp : (v j : Int) ≠ 0 ∧ (v (j + 1) : Int) = (v j : Int)
      · rw [if_pos hp]
        have hpn : v j ≠ 0 ∧ v (j + 1) = v j := by
          constructor
          · intro h
            exact hp.1 (by exact_mod_cast h)
          · exact_mod_cast hp.2
        constructor
        · intro h
          have hm : m ≤ stableCountAt v (j + 1) := by omega
          obtain ⟨h1, h2⟩ := (ih j).mp hm
          refine ⟨by omega, fun i hi1 hi2 => ?_⟩
          rcases Nat.lt_or_ge i j with h3 | h3
          · exact h2 i (by omega) h3
          · obtain rfl : i = j := by omega
            exact hpn
        · rintro ⟨h1, h2⟩
          have hm : m ≤ stableCountAt v (j + 1) := by
            apply (ih j).mpr
            refine ⟨by omega, fun i hi1 hi2 => ?_⟩
            exact h2 i (by omega) (by omega)
          omega
      · rw [if_neg hp]
        constructor
        · intro h
          exact absurd h (by omega)
        · rintro ⟨h1, h2⟩
          exfalso
          apply hp
          have hpair := h2 j (by omega) (by omega)
          constructor
          · exact_mod_cast hpair.1
          · exact_mod_cast hpair.2

/-- C4 (amended).  On an error-free run, waitTillHTMLStable returns the early
stable result exactly when some sample index j inside the poll window closes
stableIterations consecutive equal pairs of the content-size fingerprint,
i.e. exactly when stableIterations + 1 consecutive samples are numerically
equal and nonzero.  The unamended claim (stableIterations consecutive equal
nonzero samples suffice) is one sample short; equal samples whose value is
zero never count towards the run. -/
theorem C4_stable_iff_si_plus_one_equal_samples (v : Nat → Nat)
    (timeout checkInterval stableIterations : Nat) :
    isStableOutcome (waitTillHTMLStable (pureSamples v) timeout checkInterval
        stableIterations) = true ↔
      ∃ j, pureElapsed checkInterval j < timeout ∧ stableIterations ≤ j ∧
        ∀ i, j - stableIterations ≤ i → i < j → (v i ≠ 0 ∧ v (i + 1) = v i) := by
  have he0 : pureElapsed checkInterval 0 = 0 := by
    simp only [pureElapsed, Nat.zero_mul]
  have h := stableLoop_pure_stable_iff v timeout checkInterval stableIterations
    (timeout + 2) 0 (by simp only [pureElapsed, Nat.zero_mul]; omega)
  rw [he0, show lastSize v 0 = 0 from rfl, show stableCountAt v 0 = 0 from rfl] at h
  unfold waitTillHTMLStable
  constructor
  · intro hst
    obtain ⟨j, -, hj2, hj3⟩ := h.mp hst
    have hs := (stableCountAt_ge_iff v stableIterations j).mp hj3
    exact ⟨j, hj2, hs.1, hs.2⟩
  · rintro ⟨j, hj2, hj3, hj4⟩
    exact h.mpr ⟨j, Nat.zero_le _, hj2,
      (stableCountAt_ge_iff v stableIterations j).mpr ⟨hj3, hj4⟩⟩

def c4Samples : Nat → RawSample := fun _ => RawSample.size 5

/-- C4 counterexample.  stableIterations = 3, timeout 1200 ms, checkInterval
500 ms: exactly three samples fit in the window (at 0, 550 and 1100 ms), all
equal to the nonzero size 5 — three consecutive equal nonzero samples, which
the claim says trigger the early stable return — yet the call times out at
1650 ms without ever declaring the page stable. -/
theorem C4_counterexample :
    (∀ k, c4Samples k = RawSample.size 5) ∧
      isStableOutcome (waitTillHTMLStable c4Samples 1200 500 3) = false ∧
      waitTillHTMLStable c4Samples 1200 500 3 = .timedOut 1650 := by
  refine ⟨fun k => rfl, ?_, ?_⟩ <;> decide

theorem C4_witness :
    isStableOutcome (waitTillHTMLStable (pureSamples (fun _ => 5)) 5000 500 3) = true :=
  (C4_stable_iff_si_plus_one_equal_samples (fun _ => 5) 5000 500 3).mpr
    ⟨3, by decide, by decide, fun i h1 h2 => ⟨by decide, rfl⟩⟩

/-- Every race callback preserves the race invariant. -/
theorem raceStep_inv (init : Nat) (waiting : Bool) (before : List Nat)
    (s : RaceState) (e : RaceEvent)
    (hs : RaceInv init before s) (he : eventTargetOK before e = true) :
    RaceInv init before (raceStep init waiting before s e) := by
  obtain ⟨h1, h2, h3⟩ := hs
  cases e with
  | tabActivated t =>
    simp only [raceStep]
    split_ifs <;> exact ⟨h1, h2, h3⟩
  | tabRemoved t =>
    simp only [raceStep]
    split_ifs <;> exact ⟨h1, h2, h3⟩
  | tabGetOk t o =>
    have htb : t ∉ before := of_decide_eq_true he
    simp only [raceStep]
    split_ifs with ha
    · obtain ⟨-, hnav⟩ := ha
      simp only [hnav] at h1
      simp only [if_neg (by decide : ¬ (false = true))] at h1
      refine ⟨by simp [h1], fun _ => rfl, ?_⟩
      intro c hc
      simp only [List.mem_append, List.mem_singleton] at hc
      rcases hc with hc | hc
      · exact h3 c hc
      · subst hc
        exact ⟨fun _ => ⟨t, rfl, htb⟩, fun hsrc => CommitSource.noConfusion hsrc,
          fun hsrc => CommitSource.noConfusion hsrc⟩
    · exact ⟨h1, h2, h3⟩
  | tabGetErr t =>
    simp only [raceStep]
    exact ⟨h1, h2, h3⟩
  | fastTimerFire =>
    simp only [raceStep]
    split_ifs with ha hb hc
    · exact ⟨h1, h2, h3⟩
    · exact ⟨h1, h2, h3⟩
    · simp only [hc] at h1
      simp only [if_neg (by decide : ¬ (false = true))] at h1
      refine ⟨by simp [h1], fun _ => rfl, ?_⟩
      intro c hc2
      simp only [List.mem_append, List.mem_singleton] at hc2
      rcases hc2 with hc2 | hc2
      · exact h3 c hc2
      · subst hc2
        exact ⟨fun hsrc => CommitSource.noConfusion hsrc, fun _ => rfl,
          fun hsrc => CommitSource.noConfusion hsrc⟩
    · exact ⟨h1, h2, h3⟩
  | longTimerFire =>
    simp only [raceStep]
    split_ifs with ha hb hd
    · exact ⟨h1, h2, h3⟩
    · exact ⟨h1, fun _ => hb, h3⟩
    · have hnav : s.navigationHandled = false := by
        revert hb; cases s.navigationHandled <;> simp
      simp only [hnav] at h1
      simp only [if_neg (by decide : ¬ (false = true))] at h1
      refine ⟨by simp [h1], fun _ => rfl, ?_⟩
      intro c hc2
      simp only [List.mem_append, List.mem_singleton] at hc2
      rcases hc2 with hc2 | hc2
      · exact h3 c hc2
      · subst hc2
        refine ⟨fun hsrc => CommitSource.noConfusion hsrc,
          fun hsrc => CommitSource.noConfusion hsrc, ?_⟩
        intro _ hdet
        have hdet2 : s.newTabDetected = false := hdet
        rw [hdet2] at hd
        exact absurd hd (by decide)
    · have hnav : s.navigationHandled = false := by
        revert hb; cases s.navigationHandled <;> simp
      simp only [hnav] at h1
      simp only [if_neg (by decide : ¬ (false = true))] at h1
      refine ⟨by simp [h1], fun _ => rfl, ?_⟩
      intro c hc2
      simp only [List.mem_append, List.mem_singleton] at hc2
      rcases hc2 with hc2 | hc2
      · exact h3 c hc2
      · subst hc2
        exact ⟨fun hsrc => CommitSource.noConfusion hsrc,
          fun hsrc => CommitSource.noConfusion hsrc, fun _ _ => rfl⟩

/-- navigationHandled is monotone: once a path has committed, every later
callback leaves the lock set. -/
theorem raceStep_handled_mono (init : Nat) (waiting : Bool) (before : List Nat)
    (s : RaceState) (e : RaceEvent) (h : s.navigationHandled = true) :
    (raceStep init waiting before s e).navigationHandled = true := by
  cases e with
  | tabActivated t =>
    simp only [raceStep]
    split_ifs <;> exact h
  | tabRemoved t =>
    simp only [raceStep]
    split_ifs <;> exact h
  | tabGetOk t o =>
    simp only [raceStep]
    split_ifs <;> simp_all
  | tabGetErr t =>
    simp only [raceStep]
    exact h
  | fastTimerFire =>
    simp only [raceStep]
    split_ifs <;> simp_all
  | longTimerFire =>
    simp only [raceStep]
    split_ifs <;> simp_all

/-- Folding any well-formed event trace preserves the race invariant. -/
theorem runRace_foldl_inv (init : Nat) (waiting : Bool) (before : List Nat) :
    ∀ (evts : List RaceEvent) (s : RaceState), RaceInv init before s →
    (∀ e ∈ evts, eventTargetOK before e = true) →
    RaceInv init before (evts.foldl (raceStep init waiting before) s) := by
  intro evts
  induction evts with
  | nil => intro s hs _; exact hs
  | cons e es ih =>
    intro s hs hok
    simp only [List.foldl_cons]
    exact ih _ (raceStep_inv init waiting before s e hs (hok e (List.mem_cons_self e es)))
      (fun e2 he2 => hok e2 (List.mem_cons_of_mem e he2))

/-- navigationHandled stays set across any further trace. -/
theorem foldl_handled_mono (init : Nat) (waiting : Bool) (before : List Nat) :
    ∀ (evts : List RaceEvent) (s : RaceState), s.navigationHandled = true →
    (evts.foldl (raceStep init waiting before) s).navigationHandled = true := by
  intro evts
  induction evts with
  | nil => intro s h; exact h
  | cons e es ih =>
    intro s h
    simp only [List.foldl_cons]
    exact ih _ (raceStep_handled_mono init waiting before s e h)

/-- After the long-wait timer fires, navigationHandled is set: either some
path had already committed, or the timer was still armed and its own firing
commits. -/
theorem raceStep_longFire_handled (init : Nat) (waiting : Bool) (before : List Nat)
    (s : RaceState) (h2 : s.longTimerArmed = false → s.navigationHandled = true) :
    (raceStep init waiting before s RaceEvent.longTimerFire).navigationHandled = true := by
  simp only [raceStep]
  split_ifs with ha hb hd
  · exact h2 ha
  · exact hb
  · rfl
  · rfl

/-- C2, corrected.  For every invocation of waitForTabOperationComplete and
over every interleaving of the competing callbacks — including the global
onActivated listener and tab removals, which move the global active-tab
pointer — at most one tab is ever passed to the shared completion stages:
every commit path sets the navigationHandled lock first, making every other
path a no-op, so the returned promise is settled from exactly one tab's
processing result, and exactly one commit occurs in any trace where the 5 s
long-wait fallback fires.  The committed tab is classified by path: a tab
not in the tabsBeforeOperation snapshot on the new-tab activation path, and
the original tab on the fast-timer path and on the long-wait fallback when
no new tab was detected.  (The unamended claim — that every committed tab is
either the original or a newly detected one — is false of the program: a
long-wait commit after a new-tab detection takes whatever tab getActiveTabId
names at that moment, which the already-tracked-tab branch of the global
listener at part_001 lines 393-394 and the auto-activation after a removal
at lines 507-518 can have moved to an old tracked tab; see the
counterexample.) -/
theorem C2_single_commit_and_path_targets (initialActiveTabId : Nat)
    (waitingForNewTab : Bool) (tabsBeforeOperation : List Nat)
    (evts : List RaceEvent)
    (hok : ∀ e ∈ evts, eventTargetOK tabsBeforeOperation e = true) :
    (runRace initialActiveTabId waitingForNewTab tabsBeforeOperation evts).commits.length ≤ 1 ∧
    (∀ c ∈ (runRace initialActiveTabId waitingForNewTab tabsBeforeOperation evts).commits,
      (c.source = CommitSource.newTabPath →
        ∃ t, c.target = some t ∧ t ∉ tabsBeforeOperation) ∧
      (c.source = CommitSource.fastTimerPath →
        c.target = some initialActiveTabId) ∧
      (c.source = CommitSource.longWaitPath → c.newTabDetected = false →
        c.target = some initialActiveTabId)) ∧
    (RaceEvent.longTimerFire ∈ evts →
      (runRace initialActiveTabId waitingForNewTab tabsBeforeOperation evts).commits.length = 1) := by
  have hinit : RaceInv initialActiveTabId tabsBeforeOperation
      (initRaceState initialActiveTabId tabsBeforeOperation) :=
    ⟨rfl, fun h => Bool.noConfusion h, fun c hc => absurd hc (List.not_mem_nil c)⟩
  have hfin := runRace_foldl_inv initialActiveTabId waitingForNewTab
    tabsBeforeOperation evts _ hinit hok
  obtain ⟨hf1, hf2, hf3⟩ := hfin
  simp only [runRace]
  refine ⟨?_, hf3, ?_⟩
  · rw [hf1]
    split_ifs <;> omega
  · intro hmem
    obtain ⟨l1, l2, hsplit⟩ := List.append_of_mem hmem
    subst hsplit
    have hok1 : ∀ e ∈ l1, eventTargetOK tabsBeforeOperation e = true := fun e he =>
      hok e (List.mem_append.mpr (Or.inl he))
    have hinv1 := runRace_foldl_inv initialActiveTabId waitingForNewTab
      tabsBeforeOperation l1 _ hinit hok1
    have hhandled := raceStep_longFire_handled initialActiveTabId waitingForNewTab
      tabsBeforeOperation _ hinv1.2.1
    have hfinal := foldl_handled_mono initialActiveTabId waitingForNewTab
      tabsBeforeOperation l2 _ hhandled
    have hnav : ((l1 ++ RaceEvent.longTimerFire :: l2).foldl
        (raceStep initialActiveTabId waitingForNewTab tabsBeforeOperation)
        (initRaceState initialActiveTabId tabsBeforeOperation)).navigationHandled = true := by
      rw [List.foldl_append]
      simp only [List.foldl_cons]
      exact hfinal
    rw [hf1, hnav]
    rfl

/-- Trace refuting the unamended C2 (original tab 2, tracked tabs 1 and 2,
waitingForNewTab false): a popup (tab 5) is activated and detected, its
chrome.tabs.get rejects, the popup is closed — nulling the active pointer —
and the subsequent activation of the old tracked tab 1 moves the global
active-tab pointer to 1 via the global listener; the 5 s fallback then
commits tab 1. -/
def c2CxEvents : List RaceEvent :=
  [RaceEvent.tabActivated 5, RaceEvent.tabGetErr 5, RaceEvent.tabRemoved 5,
   RaceEvent.tabActivated 1, RaceEvent.longTimerFire]

/-- Counterexample to the unamended C2: every event of the trace is
well-formed, exactly one commit happens, yet the committed tab 1 is a
previously-tracked tab different from the original active tab 2 — neither
the original nor a newly detected tab. -/
theorem C2_counterexample :
    (∀ e ∈ c2CxEvents, eventTargetOK [1, 2] e = true) ∧
    (runRace 2 false [1, 2] c2CxEvents).commits =
      [⟨some 1, CommitSource.longWaitPath, true⟩] ∧
    (1 : Nat) ∈ [1, 2] ∧ (1 : Nat) ≠ 2 := by
  decide

/-- A concrete well-formed trace for the main race theorem: a new tab 5 is
activated, its get resolves with opener 1, then both timers fire. -/
def c2Events : List RaceEvent :=
  [RaceEvent.tabActivated 5, RaceEvent.tabGetOk 5 (some 1),
   RaceEvent.fastTimerFire, RaceEvent.longTimerFire]

theorem C2_witness :
    (runRace 1 false [1] c2Events).commits.length ≤ 1 ∧
    (∀ c ∈ (runRace 1 false [1] c2Events).commits,
      (c.source = CommitSource.newTabPath → ∃ t, c.target = some t ∧ t ∉ [1]) ∧
      (c.source = CommitSource.fastTimerPath → c.target = some 1) ∧
      (c.source = CommitSource.longWaitPath → c.newTabDetected = false →
        c.target = some 1)) ∧
    (RaceEvent.longTimerFire ∈ c2Events →
      (runRace 1 false [1] c2Events).commits.length = 1) :=
  C2_single_commit_and_path_targets 1 false [1] c2Events (by decide)

/-- The catch handler of attachDebugger always ends with no global
reference: safelyDetachPreviousDebugger leaves only none or the same tabId,
and the catch clears the matching one. -/
theorem catch_clears_debugTarget (tabId : Nat) (debugTarget : Option Nat) :
    (if safelyDetachPreviousDebugger tabId debugTarget = some tabId then none
      else safelyDetachPreviousDebugger tabId debugTarget) = (none : Option Nat) := by
  unfold safelyDetachPreviousDebugger
  rcases debugTarget with _ | t
  · simp
  · by_cases h3 : t = tabId <;> simp [h3]

/-- C6 (amended).  A failing attachDebugger call leaves no residual global
session reference in every failure case EXCEPT the post-attach
re-verification failure: when the attach and enable commands succeed but the
independent re-verification reports the debugger not attached, the function
returns false while the global debugTarget remains set to that target (the
unamended claim asserted no residual reference in every failure case,
explicitly including this one). -/
theorem C6_attach_failure_residual (tabId : Nat) (debugTarget : Option Nat)
    (h : AttachHost) (ht : ¬ tabId = 0)
    (hfail : (attachDebugger tabId debugTarget h).1 = false) :
    (attachDebugger tabId debugTarget h).2 = none ∨
      (h.verifyAttached = false ∧
        (attachDebugger tabId debugTarget h).2 = some tabId) := by
  unfold attachDebugger at hfail ⊢
  rw [if_neg ht] at hfail ⊢
  by_cases h1 : h.alreadyAttached = true
  · rw [if_pos h1] at hfail
    simp at hfail
  · rw [if_neg h1] at hfail ⊢
    by_cases h2 : h.attachOk = false
    · rw [if_pos h2]
      exact Or.inl (catch_clears_debugTarget tabId debugTarget)
    · rw [if_neg h2] at hfail ⊢
      by_cases h3 : h.enablePageOk = false
      · rw [if_pos h3]
        exact Or.inl (catch_clears_debugTarget tabId debugTarget)
      · rw [if_neg h3] at hfail ⊢
        by_cases h4 : h.enableRuntimeOk = false
        · rw [if_pos h4]
          exact Or.inl (catch_clears_debugTarget tabId debugTarget)
        · rw [if_neg h4] at hfail ⊢
          by_cases h5 : h.enableDOMOk = false
          · rw [if_pos h5]
            exact Or.inl (catch_clears_debugTarget tabId debugTarget)
          · rw [if_neg h5] at hfail ⊢
            by_cases h6 : h.verifyAttached = false
            · rw [if_pos h6]
              exact Or.inr ⟨h6, rfl⟩
            · rw [if_neg h6] at hfail
              simp at hfail

def c6HostVerifyFail : AttachHost := ⟨false, true, true, true, true, false⟩

/-- C6 counterexample.  With no previous session, successful attach and
enable commands but a failing post-attach re-verification, attachDebugger
returns false AND leaves debugTarget set to the target: the claim that every
failing call leaves no residual global session reference is false in exactly
the case the claim singled out. -/
theorem C6_counterexample :
    attachDebugger 1 none c6HostVerifyFail = (false, some 1) := by
  decide

def c6HostAttachFail : AttachHost := ⟨false, false, true, true, true, true⟩

theorem C6_witness :
    (attachDebugger 1 (some 7) c6HostAttachFail).2 = none ∨
      (c6HostAttachFail.verifyAttached = false ∧
        (attachDebugger 1 (some 7) c6HostAttachFail).2 = some 1) :=
  C6_attach_failure_residual 1 (some 7) c6HostAttachFail (by decide) (by decide)

/-- C7 (amended).  A click whose coordinate string does not parse as "x,y"
with two numeric parts fails immediately with the parse error, no host
input-dispatch call is made, and the failed attempt leaves the tab's
TabProcessingState at Idle — which is non-busy, but NOT necessarily the value
it held before the attempt: the coordinator had already set
NavigationPending (part_001 line 806) and the catch resets to Idle (line
882), so a tab previously in Completed ends in Idle (the unamended claim
asserted the state is not changed by the attempt). -/
theorem C7_invalid_coordinate_fails_before_dispatch
    (stateBefore : Option TabProcessingState) (tabId : Nat)
    (debugTarget : Option Nat) (coordinateString : List Char) (pressOk releaseOk : Bool)
    (hbad : parseCoordinate coordinateString = none) :
    clickCommandAttempt stateBefore (some tabId) debugTarget coordinateString
      pressOk releaseOk
      = (some TabProcessingState.idle,
         Except.error "invalid coordinate format", []) := by
  unfold clickCommandAttempt performClick
  rw [hbad]

/-- C7 counterexample.  Dispatching click with coordinate "abc,def" on a tab
whose state was Completed: the attempt fails before any input dispatch, but
the stored TabProcessingState afterwards is Idle, not the prior Completed —
the state was changed by the attempt. -/
def c7BadCoordinate : List Char := ['a', 'b', 'c', ',', 'd', 'e', 'f']

theorem C7_counterexample :
    parseCoordinate c7BadCoordinate = none ∧
      clickCommandAttempt (some TabProcessingState.completed) (some 1) (some 1)
          c7BadCoordinate true true
        = (some TabProcessingState.idle,
           Except.error "invalid coordinate format", []) ∧
      some TabProcessingState.idle ≠ some TabProcessingState.completed := by
  refine ⟨?_, ?_, by decide⟩
  · decide
  · rfl

theorem C7_witness :
    clickCommandAttempt (some TabProcessingState.completed) (some 1) (some 1)
        c7BadCoordinate true true
      = (some TabProcessingState.idle,
         Except.error "invalid coordinate format", []) :=
  C7_invalid_coordinate_fails_before_dispatch (some TabProcessingState.completed) 1
    (some 1) c7BadCoordinate true true (by decide)

/-- Full characterization of the fail-fast batch loop: with no failing step
every operation is dispatched in order and reported success; with a first
failure at absolute index i, exactly steps start..i are dispatched and the
results are the successes strictly before i followed by the failing step's
error entry. -/
theorem runBatchSteps_spec (exec : Nat → BatchOperation → Except String OpResult) :
    ∀ (ops : List BatchOperation) (start cur : Nat),
      (firstFailure exec ops start = none →
        (runBatchSteps exec ops start cur).1
          = ops.map (fun op => ⟨op, "success", none⟩) ∧
        (runBatchSteps exec ops start cur).2.2 = List.range' start ops.length) ∧
      (∀ i e, firstFailure exec ops start = some (i, e) →
        start ≤ i ∧ i - start < ops.length ∧
        (∃ failOp rest2, ops.drop (i - start) = failOp :: rest2 ∧
          exec i failOp = .error e ∧
          (runBatchSteps exec ops start cur).1
            = (ops.take (i - start)).map (fun op => ⟨op, "success", none⟩)
              ++ [⟨failOp, "error", some e⟩]) ∧
        (runBatchSteps exec ops start cur).2.2 = List.range' start (i - start + 1)) := by
  intro ops
  induction ops with
  | nil =>
    intro start cur
    constructor
    · intro _
      exact ⟨rfl, rfl⟩
    · intro i e h
      simp [firstFailure] at h
  | cons op rest ih =>
    intro start cur
    constructor
    · intro hnone
      cases hex : exec start op with
      | error e2 =>
        simp only [firstFailure, hex] at hnone
        exact absurd hnone (Option.some_ne_none _)
      | ok r =>
        simp only [firstFailure, hex] at hnone
        obtain ⟨h1, h2⟩ := (ih (start + 1)
          (if r.newTabOpened = true ∧ r.newTabId.isSome
            then r.newTabId.getD cur else cur)).1 hnone
        simp only [runBatchSteps, hex]
        constructor
        · rw [List.map_cons]
          exact congrArg _ h1
        · show start :: (runBatchSteps exec rest (start + 1) _).2.2
            = List.range' start (rest.length + 1)
          rw [h2, List.range'_succ]
    · intro i e h
      cases hex : exec start op with
      | error e2 =>
        simp only [firstFailure, hex] at h
        obtain ⟨rfl, rfl⟩ : start = i ∧ e2 = e := by
          constructor
          · injection h with h1
            exact congrArg Prod.fst h1
          · injection h with h1
            exact congrArg Prod.snd h1
        refine ⟨le_refl _, by simp, ⟨op, rest, by simp, hex, ?_⟩, ?_⟩
        · simp only [runBatchSteps, hex]
          simp
        · simp only [runBatchSteps, hex]
          simp
      | ok r =>
        simp only [firstFailure, hex] at h
        obtain ⟨hstart, hlt, ⟨failOp, rest2, hdrop, hexec, hres⟩, hexecd⟩ :=
          (ih (start + 1)
            (if r.newTabOpened = true ∧ r.newTabId.isSome
              then r.newTabId.getD cur else cur)).2 i e h
        have harith : i - start = i - (start + 1) + 1 := by omega
        refine ⟨by omega, by simp; omega, ⟨failOp, rest2, ?_, hexec, ?_⟩, ?_⟩
        · rw [harith, List.drop_succ_cons]
          exact hdrop
        · simp only [runBatchSteps, hex]
          rw [harith, List.take_succ_cons, List.map_cons]
          show (⟨op, "success", none⟩ : StepEntry) ::
              (runBatchSteps exec rest (start + 1) _).1 = _
          rw [hres, List.cons_append]
        · simp only [runBatchSteps, hex]
          show start :: (runBatchSteps exec rest (start + 1) _).2.2 = _
          rw [hexecd, harith, List.range'_succ, List.range'_succ, List.range'_succ]

/-- C8.  If the i-th operation of a batch is the first to fail then no
operation after i is dispatched (the dispatched indices are exactly 0..i),
the per-step results are exactly the success entries of the i preceding steps
followed by the failing step's error entry, and nothing removes the entries
or effects of the preceding steps (the results and dispatch lists are only
ever appended to). -/
theorem C8_batch_fail_fast (exec : Nat → BatchOperation → Except String OpResult)
    (ops : List BatchOperation) (startTab : Nat) (i : Nat) (e : String)
    (hf : firstFailure exec ops 0 = some (i, e)) :
    i < ops.length ∧
    (∃ failOp rest2, ops.drop i = failOp :: rest2 ∧ exec i failOp = .error e ∧
      (runBatchSteps exec ops 0 startTab).1
        = (ops.take i).map (fun op => ⟨op, "success", none⟩)
          ++ [⟨failOp, "error", some e⟩]) ∧
    (runBatchSteps exec ops 0 startTab).2.2 = List.range' 0 (i + 1) ∧
    (∀ j, j ∈ (runBatchSteps exec ops 0 startTab).2.2 ↔ j ≤ i) := by
  obtain ⟨-, hlt, hdr, hexecd⟩ := (runBatchSteps_spec exec ops 0 startTab).2 i e hf
  rw [Nat.sub_zero] at hlt hdr hexecd
  refine ⟨hlt, hdr, hexecd, ?_⟩
  intro j
  rw [hexecd, List.mem_range']
  constructor
  · rintro ⟨k, hk, rfl⟩
    omega
  · intro hj
    exact ⟨j, by omega, by omega⟩

def c8Ops : List BatchOperation :=
  [⟨"click", some ⟨some "10,20", none, none, none, none, none⟩⟩,
   ⟨"type", some ⟨none, some "hi", none, none, none, none⟩⟩,
   ⟨"badOp", none⟩,
   ⟨"type", some ⟨none, some "never runs", none, none, none, none⟩⟩]

def c8Host : Nat → Except String OpResult := fun _ => .ok ⟨false, none⟩

def c8Exec : Nat → BatchOperation → Except String OpResult :=
  fun i op => executeOperation op (c8Host i)

theorem C8_witness :
    2 < c8Ops.length ∧
    (∃ failOp rest2, c8Ops.drop 2 = failOp :: rest2 ∧
      c8Exec 2 failOp = .error ("Unsupported operation: " ++ "badOp") ∧
      (runBatchSteps c8Exec c8Ops 0 1).1
        = (c8Ops.take 2).map (fun op => ⟨op, "success", none⟩)
          ++ [⟨failOp, "error", some ("Unsupported operation: " ++ "badOp")⟩]) ∧
    (runBatchSteps c8Exec c8Ops 0 1).2.2 = List.range' 0 3 ∧
    (∀ j, j ∈ (runBatchSteps c8Exec c8Ops 0 1).2.2 ↔ j ≤ 2) :=
  C8_batch_fail_fast c8Exec c8Ops 1 2 ("Unsupported operation: " ++ "badOp") (by decide)

/-- C10.  When a step of a non-empty batch fails (including an unknown
operation name) and the batch stops early, the aggregate response still
carries top-level status success — both when the final tab is gone and when
it exists and the final capture and tab lookup succeed — and the step failure
is recorded only inside the per-step operations array, so a caller branching
on the top-level status alone does not observe it. -/
theorem C10_step_failure_hidden_by_top_level_success (ops : List BatchOperation)
    (targetTab : Nat) (host : Nat → Except String OpResult)
    (finalTabs : List Nat) (shot url : String) (i : Nat) (e : String)
    (hf : firstFailure (fun i op => executeOperation op (host i)) ops 0 = some (i, e)) :
    (handleBatchCommand ops (some targetTab) host finalTabs (.ok shot) (.ok url)).status
        = "success" ∧
    ∃ entries, (handleBatchCommand ops (some targetTab) host finalTabs
        (.ok shot) (.ok url)).operations = some entries ∧
      ∃ entry ∈ entries, entry.status = "error" ∧ entry.error = some e := by
  have hne : ops ≠ [] := by
    intro h
    rw [h] at hf
    simp [firstFailure] at hf
  obtain ⟨-, -, ⟨failOp, rest2, -, -, hres⟩, -⟩ :=
    (runBatchSteps_spec (fun i op => executeOperation op (host i)) ops 0 targetTab).2
      i e hf
  rcases hrun : runBatchSteps (fun i op => executeOperation op (host i)) ops 0 targetTab
    with ⟨results, currentTabId, dispatched⟩
  have hres2 : results
      = (ops.take (i - 0)).map (fun op => ⟨op, "success", none⟩)
        ++ [⟨failOp, "error", some e⟩] := by
    have h2 := hres
    rw [hrun] at h2
    exact h2
  have hmem : (⟨failOp, "error", some e⟩ : StepEntry) ∈ results := by
    rw [hres2]
    exact List.mem_append_right _ (List.mem_singleton.mpr rfl)
  have heval : handleBatchCommand ops (some targetTab) host finalTabs
      (.ok shot) (.ok url)
      = if currentTabId ∉ finalTabs then
          ⟨"success", some results, none, none,
           "Batch operations completed, but tab no longer exists"⟩
        else
          ⟨"success", some results, some shot, some url,
           "Executed operations in batch"⟩ := by
    unfold handleBatchCommand
    rw [if_neg hne]
    show (match runBatchSteps (fun i op => executeOperation op (host i)) ops 0 targetTab
        with
      | (results, currentTabId, _) =>
        if currentTabId ∉ finalTabs then
          ({ status := "success", operations := some results, screenshot := none,
             currentUrl := none,
             message := "Batch operations completed, but tab no longer exists" } :
            BatchResponse)
        else
          { status := "success", operations := some results, screenshot := some shot,
            currentUrl := some url, message := "Executed operations in batch" }) = _
    rw [hrun]
  rw [heval]
  by_cases htab : currentTabId ∉ finalTabs
  · rw [if_pos htab]
    exact ⟨rfl, results, rfl, ⟨failOp, "error", some e⟩, hmem, rfl, rfl⟩
  · rw [if_neg htab]
    exact ⟨rfl, results, rfl, ⟨failOp, "error", some e⟩, hmem, rfl, rfl⟩

theorem C10_witness :
    (handleBatchCommand c8Ops (some 1) c8Host [1] (.ok "shot") (.ok "url")).status
        = "success" ∧
    ∃ entries, (handleBatchCommand c8Ops (some 1) c8Host [1]
        (.ok "shot") (.ok "url")).operations = some entries ∧
      ∃ entry ∈ entries, entry.status = "error" ∧
        entry.error = some ("Unsupported operation: " ++ "badOp") :=
  C10_step_failure_hidden_by_top_level_success c8Ops 1 c8Host [1] "shot" "url" 2
    ("Unsupported operation: " ++ "badOp") (by decide)

end BrowserMCP
